import Mathlib

/-!
# Render-state stacks of `include/vsg/vk/State.h`

A shallow embedding of the dirty-tracked state stacks (`StateStack`,
`InlineStateStack`, `MatrixStack`) and of the aggregate `State`.

* A `std::stack` is a `List` whose head is the top of the stack.
* `top()` and `pop()` on an empty `std::stack` are undefined in C++; the
  embedding returns `none` there.
* The command buffer is the chronological list of the calls recorded on it;
  its current pipeline layout is derived from that list.
-/

namespace vsg

/-- A call recorded on the command buffer. `dispatch value` stands for
`value->dispatch(commandBuffer)`, `dispatchInline value` for
`value->dispatchInline(commandBuffer)`, and `vkCmdPushConstants` for the call
of that name with its `stageFlags`, `offset`, `size` and data arguments. Its
two leading arguments (the command buffer itself and the pipeline layout read
from `commandBuffer.getCurrentPipelineLayout()`, see
`getCurrentPipelineLayout` below) are determined by the buffer the call is
recorded on and are not repeated in the record.

`T` is the type of the state objects held through `ref_ptr<const T>`. The
aggregate `State` records the calls of its `BindComputePipeline`,
`BindGraphicsPipeline`, `BindDescriptorSets` and `PushConstants` stacks on one
command buffer, so one value type serves the four classes. -/
inductive Command (T : Type) (mat4 : Type) where
  | dispatch (value : T)
  | dispatchInline (value : T)
  | vkCmdPushConstants (stageFlags : Nat) (offset : Nat) (size : Nat) (data : mat4)
  deriving DecidableEq, Repr

/-- The command buffer: the calls recorded so far, oldest first. -/
abbrev CommandBuffer (T : Type) (mat4 : Type) := List (Command T mat4)

/-- Modelled from the spec: the accessor `getCurrentPipelineLayout()` of the
class `CommandBuffer`, which is outside the sources. The spec has a
`MatrixStack` dispatch act "against the command buffer's currently bound
pipeline layout" and be undefined "if no compatible pipeline layout is
currently bound", the layout being bound when pipeline state is dispatched.
`layoutOf c` is the pipeline layout that the recorded call `c` makes current,
`none` for a call that leaves the current layout as it is. The current layout
is the one made current last; it is `none` (a null pointer) until a call has
made one current. -/
def getCurrentPipelineLayout {T mat4 L : Type} (layoutOf : Command T mat4 → Option L)
    (commandBuffer : CommandBuffer T mat4) : Option L :=
  commandBuffer.foldl
    (fun current c =>
      match layoutOf c with
      | some l => some l
      | none => current)
    none

/-! ## `template<class T> class StateStack` -/

/-- Fields of `StateStack<T>`: the `std::stack` (head = top) and `dirty`. -/
structure StateStack (T : Type) where
  stack : List T
  dirty : Bool
  deriving DecidableEq, Repr

namespace StateStack

variable {T mat4 : Type}

/-- Constructor `StateStack() : dirty(false) {}`. -/
def new : StateStack T :=
  { stack := [], dirty := false }

/-- Method `push`: `stack.push(value); dirty = true;`. -/
def push (s : StateStack T) (value : T) : StateStack T :=
  { stack := value :: s.stack, dirty := true }

/-- Method `pop`: `stack.pop(); dirty = !stack.empty();`. -/
def pop (s : StateStack T) : Option (StateStack T) :=
  match s.stack with
  | [] => none
  | _ :: rest => some { stack := rest, dirty := !rest.isEmpty }

/-- Method `size`. -/
def size (s : StateStack T) : Nat :=
  s.stack.length

/-- Method `top`. -/
def top (s : StateStack T) : Option T :=
  s.stack.head?

/-- Method `dispatch`:
`if (dirty) { stack.top()->dispatch(commandBuffer); dirty = false; }`. -/
def dispatch (s : StateStack T) (commandBuffer : CommandBuffer T mat4) :
    Option (StateStack T × CommandBuffer T mat4) :=
  if s.dirty then
    match s.top with
    | none => none
    | some value =>
      some ({ s with dirty := false }, commandBuffer ++ [Command.dispatch value])
  else
    some (s, commandBuffer)

end StateStack

/-! ## `template<class T> class InlineStateStack` -/

/-- Fields of `InlineStateStack<T>`. -/
structure InlineStateStack (T : Type) where
  stack : List T
  dirty : Bool
  deriving DecidableEq, Repr

namespace InlineStateStack

variable {T mat4 : Type}

/-- Constructor `InlineStateStack() : dirty(false) {}`. -/
def new : InlineStateStack T :=
  { stack := [], dirty := false }

/-- Method `push`: `stack.push(value); dirty = true;`. -/
def push (s : InlineStateStack T) (value : T) : InlineStateStack T :=
  { stack := value :: s.stack, dirty := true }

/-- Method `pop`: `stack.pop(); dirty = !stack.empty();`. -/
def pop (s : InlineStateStack T) : Option (InlineStateStack T) :=
  match s.stack with
  | [] => none
  | _ :: rest => some { stack := rest, dirty := !rest.isEmpty }

/-- Method `size`. -/
def size (s : InlineStateStack T) : Nat :=
  s.stack.length

/-- Method `top`. -/
def top (s : InlineStateStack T) : Option T :=
  s.stack.head?

/-- Method `dispatch`:
`if (dirty) { stack.top()->dispatchInline(commandBuffer); dirty = false; }`. -/
def dispatch (s : InlineStateStack T) (commandBuffer : CommandBuffer T mat4) :
    Option (InlineStateStack T × CommandBuffer T mat4) :=
  if s.dirty then
    match s.top with
    | none => none
    | some value =>
      some ({ s with dirty := false }, commandBuffer ++ [Command.dispatchInline value])
  else
    some (s, commandBuffer)

end InlineStateStack

/-! ## `class MatrixStack` -/

/-- Value of `VK_SHADER_STAGE_VERTEX_BIT` in the Vulkan headers. -/
def VK_SHADER_STAGE_VERTEX_BIT : Nat := 0x00000001

/-- Modelled from the spec: `sizeof(vsg::mat4)`; the type `mat4` is declared in
a header outside the sources, the spec sizes the upload "as one 4×4
single-precision matrix", 64 bytes. -/
def sizeof_mat4 : Nat := 64

/-- Fields of `MatrixStack`: the `std::stack<mat4>` (head = top),
`stageFlags`, `offset` and `dirty`. The matrix type `mat4` is a parameter. -/
structure MatrixStack (mat4 : Type) where
  matrixStack : List mat4
  stageFlags : Nat
  offset : Nat
  dirty : Bool
  deriving DecidableEq, Repr

namespace MatrixStack

variable {T mat4 dmat4 L : Type}

/-- Constructor `MatrixStack(uint32_t in_offset)`:
`offset(in_offset) { matrixStack.push(mat4()); dirty = true; }`, with the
default member initialiser `stageFlags = VK_SHADER_STAGE_VERTEX_BIT`.
`identity` is the value of `mat4()`. -/
def new (identity : mat4) (in_offset : Nat) : MatrixStack mat4 :=
  { matrixStack := [identity]
    stageFlags := VK_SHADER_STAGE_VERTEX_BIT
    offset := in_offset
    dirty := true }

/-- The constructor called without argument: `in_offset = 0`. -/
def newDefault (identity : mat4) : MatrixStack mat4 :=
  new identity 0

/-- Method `set(const mat4&)`:
`matrixStack = mat4Stack(); matrixStack.push(matrix); dirty = true;`. -/
def set (s : MatrixStack mat4) (matrix : mat4) : MatrixStack mat4 :=
  { s with matrixStack := [matrix], dirty := true }

/-- Method `set(const dmat4&)`: as `set`, the pushed frame being the `mat4`
converted from the `dmat4` argument (`narrow`). -/
def setDouble (narrow : dmat4 → mat4) (s : MatrixStack mat4) (matrix : dmat4) :
    MatrixStack mat4 :=
  { s with matrixStack := [narrow matrix], dirty := true }

/-- Method `push`: `matrixStack.push(matrix); dirty = true;`. -/
def push (s : MatrixStack mat4) (matrix : mat4) : MatrixStack mat4 :=
  { s with matrixStack := matrix :: s.matrixStack, dirty := true }

/-- Method `top`. -/
def top (s : MatrixStack mat4) : Option mat4 :=
  s.matrixStack.head?

/-- Method `pop`: `matrixStack.pop(); dirty = true;`. -/
def pop (s : MatrixStack mat4) : Option (MatrixStack mat4) :=
  match s.matrixStack with
  | [] => none
  | _ :: rest => some { s with matrixStack := rest, dirty := true }

/-- Method `dispatch`: `if (dirty) { const PipelineLayout::Implementation*
pipelineLayout = commandBuffer.getCurrentPipelineLayout()->implementation();
vkCmdPushConstants(commandBuffer, *pipelineLayout, stageFlags, offset,
sizeof(vsg::mat4), matrixStack.top().data()); dirty = false; }`. The current
layout is dereferenced unchecked: with no layout current the call is
undefined, `none` here, as is `top()` on an empty stack. -/
def dispatch (layoutOf : Command T mat4 → Option L) (s : MatrixStack mat4)
    (commandBuffer : CommandBuffer T mat4) :
    Option (MatrixStack mat4 × CommandBuffer T mat4) :=
  if s.dirty then
    match getCurrentPipelineLayout layoutOf commandBuffer with
    | none => none
    | some _ =>
      match s.top with
      | none => none
      | some matrix =>
        some ({ s with dirty := false },
          commandBuffer ++
            [Command.vkCmdPushConstants s.stageFlags s.offset sizeof_mat4 matrix])
  else
    some (s, commandBuffer)

end MatrixStack

/-! ## `class State` -/

/-- Body of the loop `for (auto& descriptorStack : descriptorStacks)
descriptorStack.dispatch(commandBuffer);` over the `std::vector`, by ascending
index. -/
def dispatchDescriptorStacks {T mat4 : Type} :
    List (InlineStateStack T) → CommandBuffer T mat4 →
      Option (List (InlineStateStack T) × CommandBuffer T mat4)
  | [], commandBuffer => some ([], commandBuffer)
  | descriptorStack :: rest, commandBuffer =>
    match descriptorStack.dispatch commandBuffer with
    | none => none
    | some (descriptorStack', commandBuffer') =>
      match dispatchDescriptorStacks rest commandBuffer' with
      | none => none
      | some (rest', commandBuffer'') => some (descriptorStack' :: rest', commandBuffer'')

/-- Body of the loop `for (auto& pushConstantsStack : pushConstantsMap)
pushConstantsStack.second.dispatch(commandBuffer);` over the entries of the
`std::map` in iteration order. -/
def dispatchPushConstantsEntries {T mat4 : Type} :
    List (Nat × StateStack T) → CommandBuffer T mat4 →
      Option (List (Nat × StateStack T) × CommandBuffer T mat4)
  | [], commandBuffer => some ([], commandBuffer)
  | pushConstantsStack :: rest, commandBuffer =>
    match pushConstantsStack.2.dispatch commandBuffer with
    | none => none
    | some (second', commandBuffer') =>
      match dispatchPushConstantsEntries rest commandBuffer' with
      | none => none
      | some (rest', commandBuffer'') =>
        some ((pushConstantsStack.1, second') :: rest', commandBuffer'')

/-- The loop over the map entries leaves the keys as they are. -/
theorem dispatchPushConstantsEntries_keys {T mat4 : Type} :
    ∀ (entries entries' : List (Nat × StateStack T)) (cb cb' : CommandBuffer T mat4),
      dispatchPushConstantsEntries entries cb = some (entries', cb') →
        entries'.map Prod.fst = entries.map Prod.fst
  | [], entries', cb, cb', h => by
    simp [dispatchPushConstantsEntries] at h
    simp [h.1.symm]
  | e :: rest, entries', cb, cb', h => by
    simp only [dispatchPushConstantsEntries] at h
    split at h
    · exact absurd h (by simp)
    · rename_i second' cb1 _
      split at h
      · exact absurd h (by simp)
      · rename_i rest' cb2 hrest
        have ih := dispatchPushConstantsEntries_keys rest rest' cb1 cb2 hrest
        simp only [Option.some.injEq, Prod.mk.injEq] at h
        rw [← h.1]
        simp [ih]

/-- Access `m[key]` on the entries of a `std::map` followed by a change `f` of
the referenced stack: `operator[]` inserts a default-constructed stack at the
key's place in key order when the key is absent. -/
def modifyEntry {T : Type} (key : Nat) (f : StateStack T → StateStack T) :
    List (Nat × StateStack T) → List (Nat × StateStack T)
  | [] => [(key, f StateStack.new)]
  | (k, s) :: rest =>
    if key < k then (key, f StateStack.new) :: (k, s) :: rest
    else if key = k then (k, f s) :: rest
    else (k, s) :: modifyEntry key f rest

/-- Keys after `modifyEntry` are the key accessed or keys present before. -/
theorem mem_keys_modifyEntry {T : Type} (key : Nat) (f : StateStack T → StateStack T) :
    ∀ (entries : List (Nat × StateStack T)) (k : Nat),
      k ∈ (modifyEntry key f entries).map Prod.fst → k = key ∨ k ∈ entries.map Prod.fst
  | [], k, h => by
    simp [modifyEntry] at h
    exact Or.inl h
  | (k0, s0) :: rest, k, h => by
    simp only [modifyEntry] at h
    split at h
    · simp only [List.map_cons, List.mem_cons] at h ⊢
      tauto
    · split at h
      · simp only [List.map_cons, List.mem_cons] at h ⊢
        tauto
      · simp only [List.map_cons, List.mem_cons] at h ⊢
        rcases h with h | h
        · tauto
        · rcases mem_keys_modifyEntry key f rest k h with h1 | h1 <;> tauto

/-- The access `modifyEntry` keeps the keys strictly ascending. -/
theorem modifyEntry_ordered {T : Type} (key : Nat) (f : StateStack T → StateStack T) :
    ∀ (entries : List (Nat × StateStack T)),
      (entries.map Prod.fst).Pairwise (· < ·) →
        ((modifyEntry key f entries).map Prod.fst).Pairwise (· < ·)
  | [], _ => by simp [modifyEntry]
  | (k0, s0) :: rest, h => by
    simp only [List.map_cons, List.pairwise_cons] at h
    simp only [modifyEntry]
    split
    · rename_i hlt
      simp only [List.map_cons, List.pairwise_cons, List.mem_cons]
      refine ⟨?_, h.1, h.2⟩
      intro a ha
      rcases ha with ha | ha
      · omega
      · have := h.1 a ha
        omega
    · split
      · simp only [List.map_cons, List.pairwise_cons]
        exact h
      · rename_i h1 h2
        simp only [List.map_cons, List.pairwise_cons]
        refine ⟨?_, modifyEntry_ordered key f rest h.2⟩
        intro a ha
        rcases mem_keys_modifyEntry key f rest a ha with ha | ha
        · omega
        · exact h.1 a ha

/-- The type `std::map<uint32_t, StateStack<PushConstants>>`: its entries in
iteration order, which for a `std::map` is strictly ascending key order. -/
structure PushConstantsMap (T : Type) where
  entries : List (Nat × StateStack T)
  ordered : (entries.map Prod.fst).Pairwise (· < ·)

namespace PushConstantsMap

variable {T mat4 : Type}

instance [DecidableEq T] : DecidableEq (PushConstantsMap T) := fun a b =>
  if h : a.entries = b.entries then
    isTrue (by cases a; cases b; simp_all)
  else
    isFalse (fun hab => h (by rw [hab]))

/-- The empty map. -/
def empty : PushConstantsMap T :=
  { entries := [], ordered := by simp }

/-- The keys in iteration order. -/
def keys (m : PushConstantsMap T) : List Nat :=
  m.entries.map Prod.fst

/-- Access `m[key]` followed by a change `f` of the referenced stack, as in
`pushConstantsMap[key].push(value)`. -/
def modify (m : PushConstantsMap T) (key : Nat) (f : StateStack T → StateStack T) :
    PushConstantsMap T :=
  { entries := modifyEntry key f m.entries
    ordered := modifyEntry_ordered key f m.entries m.ordered }

/-- The loop of `State::dispatch` over the map. -/
def dispatch (m : PushConstantsMap T) (commandBuffer : CommandBuffer T mat4) :
    Option (PushConstantsMap T × CommandBuffer T mat4) :=
  match h : dispatchPushConstantsEntries m.entries commandBuffer with
  | none => none
  | some r =>
    some ({ entries := r.1
            ordered := by
              rw [dispatchPushConstantsEntries_keys m.entries r.1 commandBuffer r.2 h]
              exact m.ordered }, r.2)

end PushConstantsMap

/-- Fields of `State` (with `USE_COMPUTE` and `USE_PUSHCONSTANTS` defined and
`DESCRIPTOR_SET_SIZE` not defined, as in the header). -/
structure State (T : Type) (mat4 : Type) where
  dirty : Bool
  computePipelineStack : StateStack T
  graphicsPipelineStack : StateStack T
  descriptorStacks : List (InlineStateStack T)
  projectionMatrixStack : MatrixStack mat4
  viewMatrixStack : MatrixStack mat4
  modelMatrixStack : MatrixStack mat4
  pushConstantsMap : PushConstantsMap T

namespace State

variable {T mat4 L : Type}

instance [DecidableEq T] [DecidableEq mat4] : DecidableEq (State T mat4) := fun a b =>
  if h : a.dirty = b.dirty ∧ a.computePipelineStack = b.computePipelineStack ∧
      a.graphicsPipelineStack = b.graphicsPipelineStack ∧
      a.descriptorStacks = b.descriptorStacks ∧
      a.projectionMatrixStack = b.projectionMatrixStack ∧
      a.viewMatrixStack = b.viewMatrixStack ∧
      a.modelMatrixStack = b.modelMatrixStack ∧
      a.pushConstantsMap = b.pushConstantsMap then
    isTrue (by cases a; cases b; simp_all)
  else
    isFalse (fun hab => h (by subst hab; simp))

/-- Constructor `State() : dirty(false) {}` with the default member
initialisers `projectionMatrixStack{0}`, `viewMatrixStack{64}`,
`modelMatrixStack{128}`; the other members are default-constructed.
`identity` is the value of `mat4()`. -/
def new (identity : mat4) : State T mat4 :=
  { dirty := false
    computePipelineStack := StateStack.new
    graphicsPipelineStack := StateStack.new
    descriptorStacks := []
    projectionMatrixStack := MatrixStack.new identity 0
    viewMatrixStack := MatrixStack.new identity 64
    modelMatrixStack := MatrixStack.new identity 128
    pushConstantsMap := PushConstantsMap.empty }

/-- Method `dispatch` of `State`; `layoutOf` is passed on to the three
`MatrixStack` dispatches, which read the current pipeline layout. -/
def dispatch (layoutOf : Command T mat4 → Option L) (s : State T mat4)
    (commandBuffer : CommandBuffer T mat4) :
    Option (State T mat4 × CommandBuffer T mat4) :=
  if s.dirty then
    match s.computePipelineStack.dispatch commandBuffer with
    | none => none
    | some (computePipelineStack, cb1) =>
    match s.graphicsPipelineStack.dispatch cb1 with
    | none => none
    | some (graphicsPipelineStack, cb2) =>
    match dispatchDescriptorStacks s.descriptorStacks cb2 with
    | none => none
    | some (descriptorStacks, cb3) =>
    match s.projectionMatrixStack.dispatch layoutOf cb3 with
    | none => none
    | some (projectionMatrixStack, cb4) =>
    match s.viewMatrixStack.dispatch layoutOf cb4 with
    | none => none
    | some (viewMatrixStack, cb5) =>
    match s.modelMatrixStack.dispatch layoutOf cb5 with
    | none => none
    | some (modelMatrixStack, cb6) =>
    match s.pushConstantsMap.dispatch cb6 with
    | none => none
    | some (pushConstantsMap, cb7) =>
      some ({ dirty := false
              computePipelineStack := computePipelineStack
              graphicsPipelineStack := graphicsPipelineStack
              descriptorStacks := descriptorStacks
              projectionMatrixStack := projectionMatrixStack
              viewMatrixStack := viewMatrixStack
              modelMatrixStack := modelMatrixStack
              pushConstantsMap := pushConstantsMap }, cb7)
  else
    some (s, commandBuffer)

end State

/-! ## Specification-side notions -/

section SpecNotions

variable {T mat4 L : Type}

/-- A pipeline layout is current on the command buffer. -/
def LayoutBound (layoutOf : Command T mat4 → Option L) (cb : CommandBuffer T mat4) : Prop :=
  (getCurrentPipelineLayout layoutOf cb).isSome = true

instance (layoutOf : Command T mat4 → Option L) (cb : CommandBuffer T mat4) :
    Decidable (LayoutBound layoutOf cb) := by
  unfold LayoutBound
  infer_instance

/-- Dispatch is defined on a `StateStack`: it is non-empty whenever dirty. -/
def StateStack.Dispatchable (s : StateStack T) : Prop :=
  s.dirty = true → s.stack ≠ []

/-- Dispatch is defined on an `InlineStateStack`: non-empty whenever dirty. -/
def InlineStateStack.Dispatchable (s : InlineStateStack T) : Prop :=
  s.dirty = true → s.stack ≠ []

/-- Dispatch is defined on a `MatrixStack`: non-empty whenever dirty. -/
def MatrixStack.Dispatchable (s : MatrixStack mat4) : Prop :=
  s.dirty = true → s.matrixStack ≠ []

instance [DecidableEq T] (s : StateStack T) : Decidable s.Dispatchable := by
  unfold StateStack.Dispatchable
  infer_instance

instance [DecidableEq T] (s : InlineStateStack T) : Decidable s.Dispatchable := by
  unfold InlineStateStack.Dispatchable
  infer_instance

instance [DecidableEq mat4] (s : MatrixStack mat4) : Decidable s.Dispatchable := by
  unfold MatrixStack.Dispatchable
  infer_instance

/-- The spec's words for what a generic stack contributes to a dispatch pass:
the single command of its top frame if its dirty flag is true, nothing
otherwise. -/
def StateStack.contribution (s : StateStack T) : CommandBuffer T mat4 :=
  if s.dirty then
    match s.top with
    | some v => [Command.dispatch v]
    | none => []
  else []

/-- The contribution of an `InlineStateStack`: the inline form of the command
of its top frame if dirty, nothing otherwise. -/
def InlineStateStack.contribution (s : InlineStateStack T) : CommandBuffer T mat4 :=
  if s.dirty then
    match s.top with
    | some v => [Command.dispatchInline v]
    | none => []
  else []

/-- The contribution of a `MatrixStack`: the upload of its top matrix if
dirty, nothing otherwise. -/
def MatrixStack.contribution (s : MatrixStack mat4) : CommandBuffer T mat4 :=
  if s.dirty then
    match s.top with
    | some m => [Command.vkCmdPushConstants s.stageFlags s.offset sizeof_mat4 m]
    | none => []
  else []

/-- The same stack with its dirty flag cleared. -/
def StateStack.cleared (s : StateStack T) : StateStack T :=
  { s with dirty := false }

/-- The same stack with its dirty flag cleared. -/
def InlineStateStack.cleared (s : InlineStateStack T) : InlineStateStack T :=
  { s with dirty := false }

/-- The same stack with its dirty flag cleared. -/
def MatrixStack.cleared (s : MatrixStack mat4) : MatrixStack mat4 :=
  { s with dirty := false }

/-- Every dirty constituent stack of the `State` is non-empty. -/
def State.Dispatchable (s : State T mat4) : Prop :=
  s.computePipelineStack.Dispatchable ∧
  s.graphicsPipelineStack.Dispatchable ∧
  (∀ d ∈ s.descriptorStacks, d.Dispatchable) ∧
  s.projectionMatrixStack.Dispatchable ∧
  s.viewMatrixStack.Dispatchable ∧
  s.modelMatrixStack.Dispatchable ∧
  (∀ e ∈ s.pushConstantsMap.entries, e.2.Dispatchable)

instance [DecidableEq T] [DecidableEq mat4] (s : State T mat4) :
    Decidable s.Dispatchable := by
  unfold State.Dispatchable
  infer_instance

/-- The sequencing precondition of the spec for a pass of `State::dispatch`
that starts on the buffer `cb`: if one of the three matrix stacks is dirty, a
pipeline layout is current once the pipeline and descriptor stacks have been
dispatched, which is when the first upload is made. -/
def State.LayoutReady (layoutOf : Command T mat4 → Option L) (s : State T mat4)
    (cb : CommandBuffer T mat4) : Prop :=
  (s.projectionMatrixStack.dirty || s.viewMatrixStack.dirty || s.modelMatrixStack.dirty)
      = true →
    LayoutBound layoutOf
      (cb ++ s.computePipelineStack.contribution ++ s.graphicsPipelineStack.contribution ++
        s.descriptorStacks.flatMap (fun d => d.contribution))

instance (layoutOf : Command T mat4 → Option L) (s : State T mat4)
    (cb : CommandBuffer T mat4) : Decidable (s.LayoutReady layoutOf cb) := by
  unfold State.LayoutReady
  infer_instance

/-- The spec's order of a dispatch pass: compute pipeline, graphics pipeline,
descriptor stacks by ascending slot index, projection, view, model, then the
push-constant stacks in the iteration order of the map. -/
def State.contribution (s : State T mat4) : CommandBuffer T mat4 :=
  s.computePipelineStack.contribution ++
  s.graphicsPipelineStack.contribution ++
  s.descriptorStacks.flatMap (fun d => d.contribution) ++
  s.projectionMatrixStack.contribution ++
  s.viewMatrixStack.contribution ++
  s.modelMatrixStack.contribution ++
  s.pushConstantsMap.entries.flatMap (fun e => e.2.contribution)

end SpecNotions

/-! ## Sequences of calls on one stack -/

section CallSequences

variable {T mat4 dmat4 L : Type}

/-- A call on a generic stack (`StateStack` or `InlineStateStack`). -/
inductive StackOp (T : Type) where
  | push (value : T)
  | pop
  | dispatch
  deriving DecidableEq, Repr

/-- A call on a `MatrixStack`. -/
inductive MatrixOp (mat4 : Type) (dmat4 : Type) where
  | set (matrix : mat4)
  | setDouble (matrix : dmat4)
  | push (matrix : mat4)
  | pop
  | dispatch
  deriving DecidableEq, Repr

/-- One call on a `StateStack` recording on the command buffer; `none` where
the call is undefined (`pop` or a dirty `dispatch` on an empty stack). -/
def StateStack.step (st : StateStack T × CommandBuffer T mat4) :
    StackOp T → Option (StateStack T × CommandBuffer T mat4)
  | StackOp.push value => some (st.1.push value, st.2)
  | StackOp.pop =>
    match st.1.pop with
    | none => none
    | some s' => some (s', st.2)
  | StackOp.dispatch => st.1.dispatch st.2

/-- A sequence of calls on a `StateStack`, in order. -/
def StateStack.run :
    List (StackOp T) → StateStack T × CommandBuffer T mat4 →
      Option (StateStack T × CommandBuffer T mat4)
  | [], st => some st
  | op :: ops, st =>
    match StateStack.step st op with
    | none => none
    | some st' => StateStack.run ops st'

/-- One call on an `InlineStateStack` recording on the command buffer. -/
def InlineStateStack.step (st : InlineStateStack T × CommandBuffer T mat4) :
    StackOp T → Option (InlineStateStack T × CommandBuffer T mat4)
  | StackOp.push value => some (st.1.push value, st.2)
  | StackOp.pop =>
    match st.1.pop with
    | none => none
    | some s' => some (s', st.2)
  | StackOp.dispatch => st.1.dispatch st.2

/-- A sequence of calls on an `InlineStateStack`, in order. -/
def InlineStateStack.run :
    List (StackOp T) → InlineStateStack T × CommandBuffer T mat4 →
      Option (InlineStateStack T × CommandBuffer T mat4)
  | [], st => some st
  | op :: ops, st =>
    match InlineStateStack.step st op with
    | none => none
    | some st' => InlineStateStack.run ops st'

/-- One call on a `MatrixStack` recording on the command buffer; `narrow` is
the conversion from `dmat4` to `mat4`; `none` where the call is undefined
(`pop` on an empty stack, a dirty `dispatch` with no layout current or on an
empty stack). -/
def MatrixStack.step (layoutOf : Command T mat4 → Option L) (narrow : dmat4 → mat4)
    (st : MatrixStack mat4 × CommandBuffer T mat4) :
    MatrixOp mat4 dmat4 → Option (MatrixStack mat4 × CommandBuffer T mat4)
  | MatrixOp.set matrix => some (st.1.set matrix, st.2)
  | MatrixOp.setDouble matrix => some (st.1.setDouble narrow matrix, st.2)
  | MatrixOp.push matrix => some (st.1.push matrix, st.2)
  | MatrixOp.pop =>
    match st.1.pop with
    | none => none
    | some s' => some (s', st.2)
  | MatrixOp.dispatch => st.1.dispatch layoutOf st.2

/-- A sequence of calls on a `MatrixStack`, in order. -/
def MatrixStack.run (layoutOf : Command T mat4 → Option L) (narrow : dmat4 → mat4) :
    List (MatrixOp mat4 dmat4) → MatrixStack mat4 × CommandBuffer T mat4 →
      Option (MatrixStack mat4 × CommandBuffer T mat4)
  | [], st => some st
  | op :: ops, st =>
    match MatrixStack.step layoutOf narrow st op with
    | none => none
    | some st' => MatrixStack.run layoutOf narrow ops st'

/-- Pushing the values of a list in order, the last one ending on top. -/
def StateStack.pushAll (s : StateStack T) (values : List T) : StateStack T :=
  values.foldl StateStack.push s

/-- Calling `pop` a number of times. -/
def StateStack.popN : Nat → StateStack T → Option (StateStack T)
  | 0, s => some s
  | n + 1, s =>
    match s.pop with
    | none => none
    | some s' => StateStack.popN n s'

/-- Pushing the values of a list in order, the last one ending on top. -/
def InlineStateStack.pushAll (s : InlineStateStack T) (values : List T) :
    InlineStateStack T :=
  values.foldl InlineStateStack.push s

/-- Calling `pop` a number of times. -/
def InlineStateStack.popN : Nat → InlineStateStack T → Option (InlineStateStack T)
  | 0, s => some s
  | n + 1, s =>
    match s.pop with
    | none => none
    | some s' => InlineStateStack.popN n s'

end CallSequences

/-! ## Scenarios and reachability of `State` -/

section StateScenarios

variable {T mat4 L : Type}

/-- The ordering scenario: on a newly constructed `State` given two descriptor
slots, one graphics pipeline is pushed, one descriptor set on slot 0 and one on
slot 1, the model matrix is changed (by `push` when `viaPush`, else by `set`),
and the caller sets the top-level flag. -/
def orderingScenario (identity : mat4) (pipeline ds0 ds1 : T) (model : mat4)
    (viaPush : Bool) : State T mat4 :=
  let s0 : State T mat4 := State.new identity
  { s0 with
    dirty := true
    graphicsPipelineStack := s0.graphicsPipelineStack.push pipeline
    descriptorStacks := [InlineStateStack.new.push ds0, InlineStateStack.new.push ds1]
    modelMatrixStack :=
      if viaPush then s0.modelMatrixStack.push model else s0.modelMatrixStack.set model }

/-- Some constituent stack of the `State` has its own dirty flag set. -/
def State.anyConstituentDirty (s : State T mat4) : Bool :=
  s.computePipelineStack.dirty || s.graphicsPipelineStack.dirty ||
  s.descriptorStacks.any (fun d => d.dirty) ||
  s.projectionMatrixStack.dirty || s.viewMatrixStack.dirty || s.modelMatrixStack.dirty ||
  s.pushConstantsMap.entries.any (fun e => e.2.dirty)

/-- Soundness of the top-level flag: it is true whenever a constituent stack
is dirty. -/
def State.FlagSound (s : State T mat4) : Prop :=
  s.anyConstituentDirty = true → s.dirty = true

instance (s : State T mat4) : Decidable s.FlagSound := by
  unfold State.FlagSound
  infer_instance

/-- Modelled from the spec: the steps by which a `State` is reached. `State`
has no method that changes its stacks or sets its flag; the caller does both on
the public members, and the spec requires that the "top-level dirty flag must
be set by the surrounding traversal ... whenever any constituent push/pop
occurs". A `change` step is any change of the members that leaves the
top-level flag set; a `dispatch` step is a defined call of `State::dispatch`. -/
inductive State.Reachable (layoutOf : Command T mat4 → Option L) (identity : mat4) :
    State T mat4 → Prop where
  | new : State.Reachable layoutOf identity (State.new identity)
  | change (s s' : State T mat4) :
      State.Reachable layoutOf identity s → s'.dirty = true →
        State.Reachable layoutOf identity s'
  | dispatch (s s' : State T mat4) (cb cb' : CommandBuffer T mat4) :
      State.Reachable layoutOf identity s → s.dispatch layoutOf cb = some (s', cb') →
        State.Reachable layoutOf identity s'

end StateScenarios

/-! ## Example states -/

/-- A choice of `layoutOf` for the examples: the state objects numbered below
30 are pipeline binds, and the `dispatch` of the pipeline bind `v` makes the
layout `v` current; no other call changes the current layout. -/
def exampleLayoutOf : Command Nat Nat → Option Nat
  | Command.dispatch v => if v < 30 then some v else none
  | _ => none

/-- A `State` in which every kind of constituent occurs: dirty pipeline
stacks, three descriptor slots of which the middle one is empty and clean, a
clean view stack, and a push-constant map whose key 7 was accessed before its
key 3. -/
def exampleState : State Nat Nat :=
  { dirty := true
    computePipelineStack := StateStack.new.push 10
    graphicsPipelineStack := (StateStack.new.push 20).push 21
    descriptorStacks :=
      [InlineStateStack.new.push 30, InlineStateStack.new, InlineStateStack.new.push 32]
    projectionMatrixStack := MatrixStack.new 0 0
    viewMatrixStack := { MatrixStack.new 0 64 with dirty := false }
    modelMatrixStack := (MatrixStack.new 0 128).push 5
    pushConstantsMap :=
      (PushConstantsMap.empty.modify 7 (fun st => st.push 70)).modify 3
        (fun st => st.push 33) }

/-! ## The three matrix stacks of `State` and their upload ranges -/

section MatrixSlots

variable {T mat4 dmat4 : Type}

/-- The three `MatrixStack` members of `State`. -/
inductive MatrixSlot where
  | projection
  | view
  | model
  deriving DecidableEq, Repr

/-- The member `projectionMatrixStack`, `viewMatrixStack` or
`modelMatrixStack` of a `State`. -/
def State.matrixStackAt (s : State T mat4) : MatrixSlot → MatrixStack mat4
  | MatrixSlot.projection => s.projectionMatrixStack
  | MatrixSlot.view => s.viewMatrixStack
  | MatrixSlot.model => s.modelMatrixStack

/-- The `State` after the caller has changed one of its matrix stacks into
`ms` and set the top-level flag. -/
def State.changeMatrixStack (s : State T mat4) (slot : MatrixSlot)
    (ms : MatrixStack mat4) : State T mat4 :=
  match slot with
  | MatrixSlot.projection => { s with dirty := true, projectionMatrixStack := ms }
  | MatrixSlot.view => { s with dirty := true, viewMatrixStack := ms }
  | MatrixSlot.model => { s with dirty := true, modelMatrixStack := ms }

/-- The bytes of the push-constant block written by an upload of `size` bytes
at `offset`: the half-open range from `offset` to `offset + size`. -/
def uploadRange (offset size : Nat) : Finset Nat :=
  Finset.Ico offset (offset + size)

/-- The call is `push`. -/
def MatrixOp.isPush : MatrixOp mat4 dmat4 → Bool
  | MatrixOp.push _ => true
  | _ => false

/-- The call is `pop`. -/
def MatrixOp.isPop : MatrixOp mat4 dmat4 → Bool
  | MatrixOp.pop => true
  | _ => false

/-- The call is one of the two `set` overloads. -/
def MatrixOp.isSet : MatrixOp mat4 dmat4 → Bool
  | MatrixOp.set _ => true
  | MatrixOp.setDouble _ => true
  | _ => false

end MatrixSlots

/-- A `State` with frames on every kind of constituent and no dirty flag set,
as left by a dispatch pass. -/
def exampleCleanState : State Nat Nat :=
  { dirty := false
    computePipelineStack := { stack := [10], dirty := false }
    graphicsPipelineStack := { stack := [21, 20], dirty := false }
    descriptorStacks := [{ stack := [30], dirty := false }, { stack := [], dirty := false }]
    projectionMatrixStack := { MatrixStack.new 0 0 with dirty := false }
    viewMatrixStack := { MatrixStack.new 0 64 with dirty := false }
    modelMatrixStack := { (MatrixStack.new 0 128).push 5 with dirty := false }
    pushConstantsMap :=
      PushConstantsMap.empty.modify 3 (fun _ => { stack := [33], dirty := false }) }

/-! ## Single dispatch steps -/

section DispatchSteps

variable {T mat4 L : Type}

/-- A clean `StateStack` dispatches nothing and stays as it is. -/
theorem stateStack_dispatch_of_clean (s : StateStack T) (cb : CommandBuffer T mat4)
    (h : s.dirty = false) : s.dispatch cb = some (s, cb) := by
  simp [StateStack.dispatch, h]

/-- A dirty `StateStack` with top frame `v` records the call for `v`. -/
theorem stateStack_dispatch_of_dirty (s : StateStack T) (cb : CommandBuffer T mat4)
    (v : T) (h : s.dirty = true) (hv : s.top = some v) :
    s.dispatch cb = some ({ s with dirty := false }, cb ++ [Command.dispatch v]) := by
  simp [StateStack.dispatch, h, hv]

/-- A clean `InlineStateStack` dispatches nothing and stays as it is. -/
theorem inlineStack_dispatch_of_clean (s : InlineStateStack T)
    (cb : CommandBuffer T mat4) (h : s.dirty = false) : s.dispatch cb = some (s, cb) := by
  simp [InlineStateStack.dispatch, h]

/-- A dirty `InlineStateStack` with top frame `v` records the inline call for `v`. -/
theorem inlineStack_dispatch_of_dirty (s : InlineStateStack T)
    (cb : CommandBuffer T mat4) (v : T) (h : s.dirty = true) (hv : s.top = some v) :
    s.dispatch cb = some ({ s with dirty := false }, cb ++ [Command.dispatchInline v]) := by
  simp [InlineStateStack.dispatch, h, hv]

/-- Recording further calls from a current layout leaves a layout current. -/
theorem foldl_layout_isSome (layoutOf : Command T mat4 → Option L) :
    ∀ (cb : CommandBuffer T mat4) (init : Option L), init.isSome = true →
      (cb.foldl
        (fun current c =>
          match layoutOf c with
          | some l => some l
          | none => current) init).isSome = true
  | [], _, h => h
  | c :: rest, init, h => by
    simp only [List.foldl_cons]
    apply foldl_layout_isSome layoutOf rest
    cases layoutOf c with
    | none => exact h
    | some l => rfl

/-- A layout current on a buffer is still current after further calls. -/
theorem layoutBound_append (layoutOf : Command T mat4 → Option L)
    (cb cb' : CommandBuffer T mat4) (h : LayoutBound layoutOf cb) :
    LayoutBound layoutOf (cb ++ cb') := by
  unfold LayoutBound getCurrentPipelineLayout at h ⊢
  rw [List.foldl_append]
  exact foldl_layout_isSome layoutOf cb' _ h

/-- A call that makes a layout current leaves a layout current. -/
theorem layoutBound_of_binds (layoutOf : Command T mat4 → Option L)
    (cb : CommandBuffer T mat4) (c : Command T mat4) (h : (layoutOf c).isSome = true) :
    LayoutBound layoutOf (cb ++ [c]) := by
  unfold LayoutBound getCurrentPipelineLayout
  rw [List.foldl_append]
  simp only [List.foldl_cons, List.foldl_nil]
  cases hc : layoutOf c with
  | none => simp [hc] at h
  | some l => rfl

/-- A clean `MatrixStack` dispatches nothing and stays as it is. -/
theorem matrixStack_dispatch_of_clean (layoutOf : Command T mat4 → Option L)
    (s : MatrixStack mat4) (cb : CommandBuffer T mat4)
    (h : s.dirty = false) : s.dispatch layoutOf cb = some (s, cb) := by
  simp [MatrixStack.dispatch, h]

/-- A dirty `MatrixStack` with top frame `m` records the upload of `m` when a
layout is current. -/
theorem matrixStack_dispatch_of_dirty (layoutOf : Command T mat4 → Option L)
    (s : MatrixStack mat4) (cb : CommandBuffer T mat4)
    (m : mat4) (h : s.dirty = true) (hm : s.top = some m) (hl : LayoutBound layoutOf cb) :
    s.dispatch layoutOf cb = some ({ s with dirty := false },
      cb ++ [Command.vkCmdPushConstants s.stageFlags s.offset sizeof_mat4 m]) := by
  unfold LayoutBound at hl
  cases hc : getCurrentPipelineLayout layoutOf cb with
  | none => simp [hc] at hl
  | some l => simp [MatrixStack.dispatch, h, hm, hc]

/-- A dirty `MatrixStack` dispatched with no layout current is undefined. -/
theorem matrixStack_dispatch_of_unbound (layoutOf : Command T mat4 → Option L)
    (s : MatrixStack mat4) (cb : CommandBuffer T mat4)
    (h : s.dirty = true) (hl : ¬ LayoutBound layoutOf cb) :
    s.dispatch layoutOf cb = none := by
  unfold LayoutBound at hl
  cases hc : getCurrentPipelineLayout layoutOf cb with
  | none => simp [MatrixStack.dispatch, h, hc]
  | some l => simp [hc] at hl

/-- With the top-level flag false `State::dispatch` changes nothing. -/
theorem state_dispatch_of_clean (layoutOf : Command T mat4 → Option L)
    (s : State T mat4) (cb : CommandBuffer T mat4)
    (h : s.dirty = false) : s.dispatch layoutOf cb = some (s, cb) := by
  simp [State.dispatch, h]

/-- A non-empty list has a head. -/
theorem exists_head_of_ne_nil {α : Type} (l : List α) (h : l ≠ []) :
    ∃ a, l.head? = some a := by
  cases l with
  | nil => exact absurd rfl h
  | cons a _ => exact ⟨a, rfl⟩

end DispatchSteps

/-! ## Dispatching twice -/

/-- C1 (dirty minimality): for a `StateStack`, an `InlineStateStack` and a
`MatrixStack` on which dispatch is defined (non-empty whenever dirty and, for
the `MatrixStack`, a pipeline layout current on the buffer whenever dirty),
the first `dispatch` returns, a second `dispatch` right after it records
nothing and leaves the stack as the first left it, and when the stack was
dirty the two calls together record exactly one call, the one for the top
frame. -/
theorem dispatch_twice_emits_once {T mat4 L : Type}
    (layoutOf : Command T mat4 → Option L)
    (g : StateStack T) (i : InlineStateStack T) (m : MatrixStack mat4)
    (cb : CommandBuffer T mat4)
    (hg : g.dirty = true → g.stack ≠ [])
    (hi : i.dirty = true → i.stack ≠ [])
    (hm : m.dirty = true → m.matrixStack ≠ [])
    (hl : m.dirty = true → LayoutBound layoutOf cb) :
    (∃ g1 cb1, g.dispatch cb = some (g1, cb1) ∧ g1.dispatch cb1 = some (g1, cb1) ∧
      (g.dirty = true → ∃ v, g.top = some v ∧ cb1 = cb ++ [Command.dispatch v])) ∧
    (∃ i1 cb1, i.dispatch cb = some (i1, cb1) ∧ i1.dispatch cb1 = some (i1, cb1) ∧
      (i.dirty = true → ∃ v, i.top = some v ∧ cb1 = cb ++ [Command.dispatchInline v])) ∧
    (∃ m1 cb1, m.dispatch layoutOf cb = some (m1, cb1) ∧
      m1.dispatch layoutOf cb1 = some (m1, cb1) ∧
      (m.dirty = true → ∃ v, m.top = some v ∧
        cb1 = cb ++ [Command.vkCmdPushConstants m.stageFlags m.offset sizeof_mat4 v])) := by
  refine ⟨?_, ?_, ?_⟩
  · cases hd : g.dirty with
    | false =>
      exact ⟨g, cb, stateStack_dispatch_of_clean g cb hd, stateStack_dispatch_of_clean g cb hd, by simp⟩
    | true =>
      obtain ⟨v, hv⟩ := exists_head_of_ne_nil g.stack (hg hd)
      exact ⟨_, _, stateStack_dispatch_of_dirty g cb v hd hv,
        stateStack_dispatch_of_clean _ _ rfl, fun _ => ⟨v, hv, rfl⟩⟩
  · cases hd : i.dirty with
    | false =>
      exact ⟨i, cb, inlineStack_dispatch_of_clean i cb hd, inlineStack_dispatch_of_clean i cb hd, by simp⟩
    | true =>
      obtain ⟨v, hv⟩ := exists_head_of_ne_nil i.stack (hi hd)
      exact ⟨_, _, inlineStack_dispatch_of_dirty i cb v hd hv,
        inlineStack_dispatch_of_clean _ _ rfl, fun _ => ⟨v, hv, rfl⟩⟩
  · cases hd : m.dirty with
    | false =>
      exact ⟨m, cb, matrixStack_dispatch_of_clean layoutOf m cb hd,
        matrixStack_dispatch_of_clean layoutOf m cb hd, by simp⟩
    | true =>
      obtain ⟨v, hv⟩ := exists_head_of_ne_nil m.matrixStack (hm hd)
      exact ⟨_, _, matrixStack_dispatch_of_dirty layoutOf m cb v hd hv (hl hd),
        matrixStack_dispatch_of_clean layoutOf _ _ rfl, fun _ => ⟨v, hv, rfl⟩⟩

/-- Witness of C1: a dirty `StateStack` and `InlineStateStack` holding two
frames and a newly constructed `MatrixStack`, on a buffer on which the
pipeline bind 1 has been recorded. -/
theorem dispatch_twice_emits_once_witness :
    (((⟨[2, 1], true⟩ : StateStack Nat).dirty = true →
        (⟨[2, 1], true⟩ : StateStack Nat).stack ≠ []) ∧
      ((⟨[4, 3], true⟩ : InlineStateStack Nat).dirty = true →
        (⟨[4, 3], true⟩ : InlineStateStack Nat).stack ≠ []) ∧
      ((MatrixStack.new (0 : Nat) 64).dirty = true →
        (MatrixStack.new (0 : Nat) 64).matrixStack ≠ []) ∧
      ((MatrixStack.new (0 : Nat) 64).dirty = true →
        LayoutBound exampleLayoutOf [Command.dispatch 1])) ∧
    ((∃ g1 cb1, (⟨[2, 1], true⟩ : StateStack Nat).dispatch
          ([Command.dispatch 1] : CommandBuffer Nat Nat)
          = some (g1, cb1) ∧ g1.dispatch cb1 = some (g1, cb1) ∧
        ((⟨[2, 1], true⟩ : StateStack Nat).dirty = true →
          ∃ v, (⟨[2, 1], true⟩ : StateStack Nat).top = some v ∧
            cb1 = [Command.dispatch 1] ++ [Command.dispatch v])) ∧
      (∃ i1 cb1, (⟨[4, 3], true⟩ : InlineStateStack Nat).dispatch
          ([Command.dispatch 1] : CommandBuffer Nat Nat)
          = some (i1, cb1) ∧ i1.dispatch cb1 = some (i1, cb1) ∧
        ((⟨[4, 3], true⟩ : InlineStateStack Nat).dirty = true →
          ∃ v, (⟨[4, 3], true⟩ : InlineStateStack Nat).top = some v ∧
            cb1 = [Command.dispatch 1] ++ [Command.dispatchInline v])) ∧
      (∃ m1 cb1, (MatrixStack.new (0 : Nat) 64).dispatch exampleLayoutOf
          ([Command.dispatch 1] : CommandBuffer Nat Nat)
          = some (m1, cb1) ∧ m1.dispatch exampleLayoutOf cb1 = some (m1, cb1) ∧
        ((MatrixStack.new (0 : Nat) 64).dirty = true →
          ∃ v, (MatrixStack.new (0 : Nat) 64).top = some v ∧
            cb1 = [Command.dispatch 1] ++
              [Command.vkCmdPushConstants (MatrixStack.new (0 : Nat) 64).stageFlags
                (MatrixStack.new (0 : Nat) 64).offset sizeof_mat4 v]))) :=
  ⟨⟨by decide, by decide, by decide, by decide⟩,
    dispatch_twice_emits_once exampleLayoutOf _ _ _ _ (by decide) (by decide) (by decide)
      (by decide)⟩

/-! ## The dispatch pass of `State` -/

section DispatchPass

variable {T mat4 L : Type}

/-- A dispatchable `StateStack` records its contribution and ends cleared. -/
theorem stateStack_dispatch_eq (s : StateStack T) (cb : CommandBuffer T mat4)
    (h : s.Dispatchable) : s.dispatch cb = some (s.cleared, cb ++ s.contribution) := by
  cases hd : s.dirty with
  | false =>
    have hc : s.cleared = s := by cases s; simp_all [StateStack.cleared]
    simp [StateStack.dispatch, StateStack.contribution, hd, hc]
  | true =>
    obtain ⟨v, hv⟩ := exists_head_of_ne_nil s.stack (h hd)
    simp [StateStack.dispatch, StateStack.contribution, StateStack.top, StateStack.cleared,
      hd, hv]

/-- A dispatchable `InlineStateStack` records its contribution and ends cleared. -/
theorem inlineStack_dispatch_eq (s : InlineStateStack T) (cb : CommandBuffer T mat4)
    (h : s.Dispatchable) : s.dispatch cb = some (s.cleared, cb ++ s.contribution) := by
  cases hd : s.dirty with
  | false =>
    have hc : s.cleared = s := by cases s; simp_all [InlineStateStack.cleared]
    simp [InlineStateStack.dispatch, InlineStateStack.contribution, hd, hc]
  | true =>
    obtain ⟨v, hv⟩ := exists_head_of_ne_nil s.stack (h hd)
    simp [InlineStateStack.dispatch, InlineStateStack.contribution, InlineStateStack.top,
      InlineStateStack.cleared, hd, hv]

/-- A dispatchable `MatrixStack` records its contribution and ends cleared,
given a current layout when it is dirty. -/
theorem matrixStack_dispatch_eq (layoutOf : Command T mat4 → Option L)
    (s : MatrixStack mat4) (cb : CommandBuffer T mat4)
    (h : s.Dispatchable) (hl : s.dirty = true → LayoutBound layoutOf cb) :
    s.dispatch layoutOf cb = some (s.cleared, cb ++ s.contribution) := by
  cases hd : s.dirty with
  | false =>
    have hc : s.cleared = s := by cases s; simp_all [MatrixStack.cleared]
    simp [MatrixStack.dispatch, MatrixStack.contribution, hd, hc]
  | true =>
    obtain ⟨v, hv⟩ := exists_head_of_ne_nil s.matrixStack (h hd)
    rw [matrixStack_dispatch_of_dirty layoutOf s cb v hd hv (hl hd)]
    simp [MatrixStack.contribution, MatrixStack.cleared, MatrixStack.top, hd, hv]

/-- The loop over the descriptor stacks records the contributions by ascending
index and clears every stack. -/
theorem dispatchDescriptorStacks_eq :
    ∀ (ds : List (InlineStateStack T)) (cb : CommandBuffer T mat4),
      (∀ d ∈ ds, d.Dispatchable) →
        dispatchDescriptorStacks ds cb =
          some (ds.map (fun d => d.cleared), cb ++ ds.flatMap (fun d => d.contribution))
  | [], cb, _ => by simp [dispatchDescriptorStacks]
  | d :: rest, cb, h => by
    have hd : d.Dispatchable := h d (List.mem_cons_self _ _)
    have hr : ∀ x ∈ rest, x.Dispatchable := fun x hx => h x (List.mem_cons_of_mem _ hx)
    simp [dispatchDescriptorStacks, inlineStack_dispatch_eq d cb hd,
      dispatchDescriptorStacks_eq rest _ hr]

/-- The loop over the map entries records the contributions in iteration order
and clears every stack. -/
theorem dispatchPushConstantsEntries_eq :
    ∀ (es : List (Nat × StateStack T)) (cb : CommandBuffer T mat4),
      (∀ e ∈ es, e.2.Dispatchable) →
        dispatchPushConstantsEntries es cb =
          some (es.map (fun e => (e.1, e.2.cleared)),
            cb ++ es.flatMap (fun e => e.2.contribution))
  | [], cb, _ => by simp [dispatchPushConstantsEntries]
  | e :: rest, cb, h => by
    have he : e.2.Dispatchable := h e (List.mem_cons_self _ _)
    have hr : ∀ x ∈ rest, x.2.Dispatchable := fun x hx => h x (List.mem_cons_of_mem _ hx)
    simp [dispatchPushConstantsEntries, stateStack_dispatch_eq e.2 cb he,
      dispatchPushConstantsEntries_eq rest _ hr]

/-- The map loop returns what the loop over its entries returns. -/
theorem pushConstantsMap_dispatch_of_entries (m : PushConstantsMap T)
    (cb cb' : CommandBuffer T mat4) (es' : List (Nat × StateStack T))
    (h : dispatchPushConstantsEntries m.entries cb = some (es', cb')) :
    ∃ m' : PushConstantsMap T, m.dispatch cb = some (m', cb') ∧ m'.entries = es' := by
  unfold PushConstantsMap.dispatch
  split
  · rename_i h0
    rw [h] at h0
    exact absurd h0 (by simp)
  · rename_i r h1
    rw [h] at h1
    cases h1
    exact ⟨_, rfl, rfl⟩

/-- A full dispatch pass: the state it returns and the calls it records. -/
theorem state_dispatch_eq (layoutOf : Command T mat4 → Option L)
    (s : State T mat4) (cb : CommandBuffer T mat4)
    (hd : s.dirty = true) (hs : s.Dispatchable) (hl : s.LayoutReady layoutOf cb) :
    ∃ s' : State T mat4, s.dispatch layoutOf cb = some (s', cb ++ s.contribution) ∧
      s'.dirty = false ∧
      s'.computePipelineStack = s.computePipelineStack.cleared ∧
      s'.graphicsPipelineStack = s.graphicsPipelineStack.cleared ∧
      s'.descriptorStacks = s.descriptorStacks.map (fun d => d.cleared) ∧
      s'.projectionMatrixStack = s.projectionMatrixStack.cleared ∧
      s'.viewMatrixStack = s.viewMatrixStack.cleared ∧
      s'.modelMatrixStack = s.modelMatrixStack.cleared ∧
      s'.pushConstantsMap.entries =
        s.pushConstantsMap.entries.map (fun e => (e.1, e.2.cleared)) := by
  obtain ⟨h1, h2, h3, h4, h5, h6, h7⟩ := hs
  obtain ⟨m', hm, hm'⟩ := pushConstantsMap_dispatch_of_entries s.pushConstantsMap _ _ _
    (dispatchPushConstantsEntries_eq s.pushConstantsMap.entries
      (cb ++ s.computePipelineStack.contribution ++ s.graphicsPipelineStack.contribution ++
        s.descriptorStacks.flatMap (fun d => d.contribution) ++
        s.projectionMatrixStack.contribution ++ s.viewMatrixStack.contribution ++
        s.modelMatrixStack.contribution) h7)
  have hl4 : s.projectionMatrixStack.dirty = true → LayoutBound layoutOf
      (cb ++ s.computePipelineStack.contribution ++ s.graphicsPipelineStack.contribution ++
        s.descriptorStacks.flatMap (fun d => d.contribution)) :=
    fun h => hl (by simp [h])
  have hl5 : s.viewMatrixStack.dirty = true → LayoutBound layoutOf
      (cb ++ s.computePipelineStack.contribution ++ s.graphicsPipelineStack.contribution ++
        s.descriptorStacks.flatMap (fun d => d.contribution) ++
        s.projectionMatrixStack.contribution) :=
    fun h => layoutBound_append layoutOf _ _ (hl (by simp [h]))
  have hl6 : s.modelMatrixStack.dirty = true → LayoutBound layoutOf
      (cb ++ s.computePipelineStack.contribution ++ s.graphicsPipelineStack.contribution ++
        s.descriptorStacks.flatMap (fun d => d.contribution) ++
        s.projectionMatrixStack.contribution ++ s.viewMatrixStack.contribution) := by
    intro h
    have hb := layoutBound_append layoutOf _
      (s.projectionMatrixStack.contribution ++ s.viewMatrixStack.contribution)
      (hl (by simp [h]))
    rwa [← List.append_assoc] at hb
  refine ⟨State.mk false s.computePipelineStack.cleared s.graphicsPipelineStack.cleared
    (s.descriptorStacks.map (fun d => d.cleared)) s.projectionMatrixStack.cleared
    s.viewMatrixStack.cleared s.modelMatrixStack.cleared m', ?_, ?_⟩
  · simp only [State.dispatch, hd, if_true, stateStack_dispatch_eq _ _ h1,
      stateStack_dispatch_eq _ _ h2, dispatchDescriptorStacks_eq _ _ h3,
      matrixStack_dispatch_eq layoutOf _ _ h4 hl4, matrixStack_dispatch_eq layoutOf _ _ h5 hl5,
      matrixStack_dispatch_eq layoutOf _ _ h6 hl6, hm]
    simp only [State.contribution, List.append_assoc]
  · exact ⟨rfl, rfl, rfl, rfl, rfl, rfl, rfl, hm'⟩

/-- Accesses to two different keys of the map entries commute. -/
theorem modifyEntry_comm (k1 k2 : Nat) (f g : StateStack T → StateStack T)
    (hne : k1 ≠ k2) :
    ∀ es : List (Nat × StateStack T),
      modifyEntry k2 g (modifyEntry k1 f es) = modifyEntry k1 f (modifyEntry k2 g es)
  | [] => by
    simp only [modifyEntry]
    rcases Nat.lt_or_gt_of_ne hne with h | h
    · have h1 : ¬ k2 < k1 := by omega
      have h2 : ¬ k2 = k1 := by omega
      simp [h, h1, h2]
    · have h1 : ¬ k1 < k2 := by omega
      have h2 : ¬ k1 = k2 := by omega
      simp [h, h1, h2]
  | (k, s) :: rest => by
    have ih := modifyEntry_comm k1 k2 f g hne rest
    simp only [modifyEntry]
    split_ifs <;> simp only [modifyEntry] <;> split_ifs <;> first | rfl | omega | simp_all

/-- The map does not depend on the order in which two different keys are
accessed. -/
theorem pushConstantsMap_modify_comm (m : PushConstantsMap T) (k1 k2 : Nat)
    (f g : StateStack T → StateStack T) (hne : k1 ≠ k2) :
    (m.modify k1 f).modify k2 g = (m.modify k2 g).modify k1 f := by
  cases m with
  | mk entries ordered =>
    simp only [PushConstantsMap.modify, PushConstantsMap.mk.injEq]
    exact modifyEntry_comm k1 k2 f g hne entries

/-- A layout current on the buffer a pass starts on meets the sequencing
precondition of the pass. -/
theorem state_layoutReady_of_bound (layoutOf : Command T mat4 → Option L)
    (s : State T mat4) (cb : CommandBuffer T mat4) (h : LayoutBound layoutOf cb) :
    s.LayoutReady layoutOf cb := by
  intro _
  have hb := layoutBound_append layoutOf cb
    (s.computePipelineStack.contribution ++ s.graphicsPipelineStack.contribution ++
      s.descriptorStacks.flatMap (fun d => d.contribution)) h
  simpa only [List.append_assoc] using hb

/-- C2 (aggregate dispatch order): for a `State` whose top-level flag is true
and whose dirty constituent stacks are all non-empty, on a buffer on which a
pipeline layout is current by the time the first dirty matrix stack is
dispatched, `State::dispatch` records
exactly the contributions of the compute-pipeline stack, the graphics-pipeline
stack, the descriptor stacks by ascending index, the projection, view and model
stacks, and the push-constant stacks in map order, which is strictly ascending
key order and does not depend on the order in which keys were accessed; each
contribution is the top frame's command for a dirty stack and nothing for a
clean one. -/
theorem state_dispatch_order {T mat4 L : Type} (layoutOf : Command T mat4 → Option L)
    (s : State T mat4) (cb : CommandBuffer T mat4) (hd : s.dirty = true)
    (hs : s.Dispatchable) (hl : s.LayoutReady layoutOf cb) :
    (∃ s' : State T mat4, s.dispatch layoutOf cb = some (s', cb ++
      (s.computePipelineStack.contribution ++
        s.graphicsPipelineStack.contribution ++
        s.descriptorStacks.flatMap (fun d => d.contribution) ++
        s.projectionMatrixStack.contribution ++
        s.viewMatrixStack.contribution ++
        s.modelMatrixStack.contribution ++
        s.pushConstantsMap.entries.flatMap (fun e => e.2.contribution)))) ∧
    s.pushConstantsMap.keys.Pairwise (· < ·) ∧
    (∀ (k1 k2 : Nat) (f g : StateStack T → StateStack T), k1 ≠ k2 →
      (s.pushConstantsMap.modify k1 f).modify k2 g =
        (s.pushConstantsMap.modify k2 g).modify k1 f) := by
  obtain ⟨s', h, _⟩ := state_dispatch_eq layoutOf s cb hd hs hl
  exact ⟨⟨s', h⟩, s.pushConstantsMap.ordered,
    fun k1 k2 f g hne => pushConstantsMap_modify_comm s.pushConstantsMap k1 k2 f g hne⟩

/-- Witness of C2 at `exampleState`, whose map was filled at key 7 before
key 3, on the empty buffer: the compute pipeline bind 10 of the pass makes a
layout current before the uploads. -/
theorem state_dispatch_order_witness :
    (exampleState.dirty = true ∧ exampleState.Dispatchable ∧
      exampleState.LayoutReady exampleLayoutOf []) ∧
    ((∃ s' : State Nat Nat, exampleState.dispatch exampleLayoutOf [] = some (s', [] ++
      (exampleState.computePipelineStack.contribution ++
        exampleState.graphicsPipelineStack.contribution ++
        exampleState.descriptorStacks.flatMap (fun d => d.contribution) ++
        exampleState.projectionMatrixStack.contribution ++
        exampleState.viewMatrixStack.contribution ++
        exampleState.modelMatrixStack.contribution ++
        exampleState.pushConstantsMap.entries.flatMap (fun e => e.2.contribution)))) ∧
    exampleState.pushConstantsMap.keys.Pairwise (· < ·) ∧
    (∀ (k1 k2 : Nat) (f g : StateStack Nat → StateStack Nat), k1 ≠ k2 →
      (exampleState.pushConstantsMap.modify k1 f).modify k2 g =
        (exampleState.pushConstantsMap.modify k2 g).modify k1 f)) :=
  ⟨⟨by decide, by decide, by decide⟩,
    state_dispatch_order exampleLayoutOf exampleState [] (by decide) (by decide) (by decide)⟩

/-- The calls `exampleState` records in one pass: key 3 before key 7. -/
theorem exampleState_contribution :
    exampleState.contribution =
      [Command.dispatch 10, Command.dispatch 21, Command.dispatchInline 30,
        Command.dispatchInline 32, Command.vkCmdPushConstants 1 0 64 0,
        Command.vkCmdPushConstants 1 128 64 5, Command.dispatch 33, Command.dispatch 70] := by
  decide

/-- A pass on the newly constructed `State` with its flag set, on the empty
buffer: no pipeline is bound before the projection upload, no layout is
current, and the pass is undefined. -/
theorem new_state_pass_without_layout :
    ¬ ({ (State.new 0 : State Nat Nat) with dirty := true }).LayoutReady exampleLayoutOf [] ∧
    ({ (State.new 0 : State Nat Nat) with dirty := true }).dispatch exampleLayoutOf [] =
      none := by
  decide

/-- C5 (gating): when the top-level flag is false, `State::dispatch` records
nothing and returns the `State` as it was, constituent frames and dirty flags
included, whatever the constituents' own flags are. -/
theorem state_dispatch_gated {T mat4 L : Type} (layoutOf : Command T mat4 → Option L)
    (s : State T mat4) (cb : CommandBuffer T mat4) (h : s.dirty = false) :
    s.dispatch layoutOf cb = some (s, cb) :=
  state_dispatch_of_clean layoutOf s cb h

/-- Witness of C5: the newly constructed `State`, whose flag is false while
its three matrix stacks are dirty. -/
theorem state_dispatch_gated_witness :
    ((State.new 0 : State Nat Nat).dirty = false ∧
      (State.new 0 : State Nat Nat).modelMatrixStack.dirty = true) ∧
    (State.new 0 : State Nat Nat).dispatch exampleLayoutOf [Command.dispatch 1] =
      some (State.new 0, [Command.dispatch 1]) :=
  ⟨⟨by decide, by decide⟩,
    state_dispatch_gated exampleLayoutOf (State.new 0) [Command.dispatch 1] (by decide)⟩

/-- C6 (post-condition of a full pass): for a `State` whose top-level flag is
true and whose dirty constituents are non-empty, on a buffer on which a
pipeline layout is current by the time the first dirty matrix stack is
dispatched, `State::dispatch` returns a
`State` with the same descriptor slots and map keys in which the top-level
flag and the dirty flag of every constituent stack are false. -/
theorem state_dispatch_clears_flags {T mat4 L : Type}
    (layoutOf : Command T mat4 → Option L) (s : State T mat4)
    (cb : CommandBuffer T mat4) (hd : s.dirty = true) (hs : s.Dispatchable)
    (hl : s.LayoutReady layoutOf cb) :
    ∃ (s' : State T mat4) (cb' : CommandBuffer T mat4),
      s.dispatch layoutOf cb = some (s', cb') ∧
      s'.dirty = false ∧
      s'.computePipelineStack.dirty = false ∧
      s'.graphicsPipelineStack.dirty = false ∧
      s'.descriptorStacks.length = s.descriptorStacks.length ∧
      (∀ d ∈ s'.descriptorStacks, d.dirty = false) ∧
      s'.projectionMatrixStack.dirty = false ∧
      s'.viewMatrixStack.dirty = false ∧
      s'.modelMatrixStack.dirty = false ∧
      s'.pushConstantsMap.keys = s.pushConstantsMap.keys ∧
      (∀ e ∈ s'.pushConstantsMap.entries, e.2.dirty = false) := by
  obtain ⟨s', h, h0, h1, h2, h3, h4, h5, h6, h7⟩ :=
    state_dispatch_eq layoutOf s cb hd hs hl
  refine ⟨s', _, h, h0, ?_, ?_, ?_, ?_, ?_, ?_, ?_, ?_, ?_⟩
  · rw [h1]; rfl
  · rw [h2]; rfl
  · rw [h3]; simp
  · rw [h3]
    intro d hdm
    obtain ⟨d0, _, rfl⟩ := List.mem_map.mp hdm
    rfl
  · rw [h4]; rfl
  · rw [h5]; rfl
  · rw [h6]; rfl
  · simp [PushConstantsMap.keys, h7, Function.comp_def]
  · rw [h7]
    intro e hem
    obtain ⟨e0, _, rfl⟩ := List.mem_map.mp hem
    rfl

/-- Witness of C6 at `exampleState` on the empty buffer. -/
theorem state_dispatch_clears_flags_witness :
    (exampleState.dirty = true ∧ exampleState.Dispatchable ∧
      exampleState.LayoutReady exampleLayoutOf []) ∧
    ∃ (s' : State Nat Nat) (cb' : CommandBuffer Nat Nat),
      exampleState.dispatch exampleLayoutOf [] = some (s', cb') ∧
      s'.dirty = false ∧
      s'.computePipelineStack.dirty = false ∧
      s'.graphicsPipelineStack.dirty = false ∧
      s'.descriptorStacks.length = exampleState.descriptorStacks.length ∧
      (∀ d ∈ s'.descriptorStacks, d.dirty = false) ∧
      s'.projectionMatrixStack.dirty = false ∧
      s'.viewMatrixStack.dirty = false ∧
      s'.modelMatrixStack.dirty = false ∧
      s'.pushConstantsMap.keys = exampleState.pushConstantsMap.keys ∧
      (∀ e ∈ s'.pushConstantsMap.entries, e.2.dirty = false) :=
  ⟨⟨by decide, by decide, by decide⟩,
    state_dispatch_clears_flags exampleLayoutOf exampleState [] (by decide) (by decide)
      (by decide)⟩

/-- Counterexample to C3: in the ordering scenario, with the pipeline bind 1
making a layout current, the projection and view stacks are dirty (their
constructor sets the flag), the pass does not record the four claimed calls,
and it records six, the identity uploads at offsets 0 and 64 coming before the
model upload. -/
theorem ordering_scenario_not_four_commands :
    (orderingScenario 0 1 2 3 9 false : State Nat Nat).projectionMatrixStack.dirty = true ∧
    (orderingScenario 0 1 2 3 9 false : State Nat Nat).viewMatrixStack.dirty = true ∧
    (¬ ∃ s' : State Nat Nat, (orderingScenario 0 1 2 3 9 false).dispatch exampleLayoutOf [] =
      some (s', [Command.dispatch 1, Command.dispatchInline 2, Command.dispatchInline 3,
        Command.vkCmdPushConstants VK_SHADER_STAGE_VERTEX_BIT 128 64 9])) ∧
    (∃ s' : State Nat Nat, (orderingScenario 0 1 2 3 9 false).dispatch exampleLayoutOf [] =
      some (s', [Command.dispatch 1, Command.dispatchInline 2, Command.dispatchInline 3,
        Command.vkCmdPushConstants VK_SHADER_STAGE_VERTEX_BIT 0 64 0,
        Command.vkCmdPushConstants VK_SHADER_STAGE_VERTEX_BIT 64 64 0,
        Command.vkCmdPushConstants VK_SHADER_STAGE_VERTEX_BIT 128 64 9])) := by
  have h : ∃ s' : State Nat Nat, (orderingScenario 0 1 2 3 9 false).dispatch exampleLayoutOf [] =
      some (s', [Command.dispatch 1, Command.dispatchInline 2, Command.dispatchInline 3,
        Command.vkCmdPushConstants VK_SHADER_STAGE_VERTEX_BIT 0 64 0,
        Command.vkCmdPushConstants VK_SHADER_STAGE_VERTEX_BIT 64 64 0,
        Command.vkCmdPushConstants VK_SHADER_STAGE_VERTEX_BIT 128 64 9]) := by
    obtain ⟨s', hs, _⟩ := state_dispatch_eq exampleLayoutOf
      (orderingScenario 0 1 2 3 9 false : State Nat Nat) [] (by decide) (by decide)
      (by decide)
    exact ⟨s', hs⟩
  refine ⟨by decide, by decide, ?_, h⟩
  rintro ⟨s1, h1⟩
  obtain ⟨s2, h2⟩ := h
  rw [h1] at h2
  simp at h2

/-- In the ordering scenario the sequencing precondition is met when the
pipeline bind of the pass makes a layout current. -/
theorem ordering_scenario_layoutReady (layoutOf : Command T mat4 → Option L)
    (identity : mat4) (pipeline ds0 ds1 : T) (model : mat4) (viaPush : Bool)
    (cb : CommandBuffer T mat4) (hp : (layoutOf (Command.dispatch pipeline)).isSome = true) :
    (orderingScenario identity pipeline ds0 ds1 model viaPush).LayoutReady layoutOf cb := by
  intro _
  have hb := layoutBound_append layoutOf (cb ++ [Command.dispatch pipeline])
    [Command.dispatchInline ds0, Command.dispatchInline ds1]
    (layoutBound_of_binds layoutOf cb _ hp)
  have he : cb ++
      (orderingScenario identity pipeline ds0 ds1 model viaPush).computePipelineStack.contribution
        ++
      (orderingScenario identity pipeline ds0 ds1 model viaPush).graphicsPipelineStack.contribution
        ++
      (orderingScenario identity pipeline ds0 ds1 model viaPush).descriptorStacks.flatMap
        (fun d => d.contribution) =
      cb ++ [Command.dispatch pipeline] ++
        [Command.dispatchInline ds0, Command.dispatchInline ds1] := by
    cases viaPush <;>
      simp [orderingScenario, State.new, StateStack.contribution,
        InlineStateStack.contribution, StateStack.new, StateStack.push, StateStack.top,
        InlineStateStack.new, InlineStateStack.push, InlineStateStack.top]
  rw [he]
  exact hb

/-- C3 as amended: in the ordering scenario (model matrix changed by `set` or
by `push`), with a pipeline layout current when the uploads are made (as when
the pipeline bind of the pass makes one current), one `State::dispatch`
records exactly six calls in this order: pipeline bind, slot-0 bind, slot-1
bind, upload of the identity at offset 0 (projection), upload of the identity
at offset 64 (view), upload of the model matrix at offset 128; the projection
and view stacks are dirty beforehand. -/
theorem ordering_scenario_six_commands {T mat4 L : Type}
    (layoutOf : Command T mat4 → Option L) (identity : mat4)
    (pipeline ds0 ds1 : T) (model : mat4) (viaPush : Bool) (cb : CommandBuffer T mat4)
    (hl : (orderingScenario identity pipeline ds0 ds1 model viaPush).LayoutReady
      layoutOf cb) :
    (orderingScenario identity pipeline ds0 ds1 model viaPush).projectionMatrixStack.dirty
      = true ∧
    (orderingScenario identity pipeline ds0 ds1 model viaPush).viewMatrixStack.dirty
      = true ∧
    ∃ s' : State T mat4,
      (orderingScenario identity pipeline ds0 ds1 model viaPush).dispatch layoutOf cb =
        some (s', cb ++ [Command.dispatch pipeline, Command.dispatchInline ds0,
          Command.dispatchInline ds1,
          Command.vkCmdPushConstants VK_SHADER_STAGE_VERTEX_BIT 0 64 identity,
          Command.vkCmdPushConstants VK_SHADER_STAGE_VERTEX_BIT 64 64 identity,
          Command.vkCmdPushConstants VK_SHADER_STAGE_VERTEX_BIT 128 64 model]) := by
  refine ⟨rfl, rfl, ?_⟩
  have hs : (orderingScenario identity pipeline ds0 ds1 model viaPush).Dispatchable := by
    cases viaPush <;>
      simp [State.Dispatchable, orderingScenario, State.new, StateStack.Dispatchable,
        InlineStateStack.Dispatchable, MatrixStack.Dispatchable, StateStack.new,
        StateStack.push, InlineStateStack.new, InlineStateStack.push, MatrixStack.new,
        MatrixStack.push, MatrixStack.set, PushConstantsMap.empty]
  obtain ⟨s', h, _⟩ := state_dispatch_eq layoutOf _ cb rfl hs hl
  refine ⟨s', ?_⟩
  rw [h]
  cases viaPush <;> rfl

/-- Witness of the amended C3: the scenario on the empty buffer, the model
matrix pushed, the pipeline bind 1 making a layout current. -/
theorem ordering_scenario_six_commands_witness :
    (orderingScenario 0 1 2 3 9 true : State Nat Nat).LayoutReady exampleLayoutOf [] ∧
    ((orderingScenario 0 1 2 3 9 true : State Nat Nat).projectionMatrixStack.dirty = true ∧
      (orderingScenario 0 1 2 3 9 true : State Nat Nat).viewMatrixStack.dirty = true ∧
      ∃ s' : State Nat Nat,
        (orderingScenario 0 1 2 3 9 true).dispatch exampleLayoutOf [] =
          some (s', [] ++ [Command.dispatch 1, Command.dispatchInline 2,
            Command.dispatchInline 3,
            Command.vkCmdPushConstants VK_SHADER_STAGE_VERTEX_BIT 0 64 0,
            Command.vkCmdPushConstants VK_SHADER_STAGE_VERTEX_BIT 64 64 0,
            Command.vkCmdPushConstants VK_SHADER_STAGE_VERTEX_BIT 128 64 9])) :=
  ⟨by decide, ordering_scenario_six_commands exampleLayoutOf 0 1 2 3 9 true [] (by decide)⟩

/-- A `StateStack` on which `dispatch` returns is non-empty if dirty. -/
theorem stateStack_dispatchable_of_dispatch (s : StateStack T) (cb : CommandBuffer T mat4)
    (r : StateStack T × CommandBuffer T mat4) (h : s.dispatch cb = some r) :
    s.Dispatchable := by
  intro hd hne
  simp [StateStack.dispatch, StateStack.top, hd, hne] at h

/-- An `InlineStateStack` on which `dispatch` returns is non-empty if dirty. -/
theorem inlineStack_dispatchable_of_dispatch (s : InlineStateStack T)
    (cb : CommandBuffer T mat4) (r : InlineStateStack T × CommandBuffer T mat4)
    (h : s.dispatch cb = some r) : s.Dispatchable := by
  intro hd hne
  simp [InlineStateStack.dispatch, InlineStateStack.top, hd, hne] at h

/-- A `MatrixStack` on which `dispatch` returns is non-empty if dirty. -/
theorem matrixStack_dispatchable_of_dispatch (layoutOf : Command T mat4 → Option L)
    (s : MatrixStack mat4)
    (cb : CommandBuffer T mat4) (r : MatrixStack mat4 × CommandBuffer T mat4)
    (h : s.dispatch layoutOf cb = some r) : s.Dispatchable := by
  intro hd hne
  cases hc : getCurrentPipelineLayout layoutOf cb <;>
    simp [MatrixStack.dispatch, MatrixStack.top, hd, hne, hc] at h

/-- A dirty `MatrixStack` on which `dispatch` returns had a layout current. -/
theorem matrixStack_layoutBound_of_dispatch (layoutOf : Command T mat4 → Option L)
    (s : MatrixStack mat4)
    (cb : CommandBuffer T mat4) (r : MatrixStack mat4 × CommandBuffer T mat4)
    (h : s.dispatch layoutOf cb = some r) (hd : s.dirty = true) :
    LayoutBound layoutOf cb := by
  by_contra hnb
  rw [matrixStack_dispatch_of_unbound layoutOf s cb hd hnb] at h
  exact absurd h (by simp)

/-- The two ways a `dispatch` of a `MatrixStack` returns: clean, nothing
changes; dirty, the flag is cleared and the upload of the top is recorded. -/
theorem matrixStack_dispatch_cases (layoutOf : Command T mat4 → Option L)
    (s s' : MatrixStack mat4) (cb cb' : CommandBuffer T mat4)
    (h : s.dispatch layoutOf cb = some (s', cb')) :
    (s.dirty = false ∧ s' = s ∧ cb' = cb) ∨
    (s.dirty = true ∧ ∃ m, s.top = some m ∧ s' = { s with dirty := false } ∧
      cb' = cb ++ [Command.vkCmdPushConstants s.stageFlags s.offset sizeof_mat4 m]) := by
  cases hd : s.dirty with
  | false =>
    rw [matrixStack_dispatch_of_clean layoutOf s cb hd] at h
    simp only [Option.some.injEq, Prod.mk.injEq] at h
    exact Or.inl ⟨rfl, h.1.symm, h.2.symm⟩
  | true =>
    obtain ⟨m, hm⟩ := exists_head_of_ne_nil s.matrixStack
      (matrixStack_dispatchable_of_dispatch layoutOf s cb _ h hd)
    rw [matrixStack_dispatch_of_dirty layoutOf s cb m hd hm
      (matrixStack_layoutBound_of_dispatch layoutOf s cb _ h hd)] at h
    simp only [Option.some.injEq, Prod.mk.injEq] at h
    exact Or.inr ⟨rfl, m, hm, h.1.symm, h.2.symm⟩

/-- When the loop over the descriptor stacks returns, each was dispatchable. -/
theorem descriptorStacks_dispatchable_of_dispatch :
    ∀ (ds : List (InlineStateStack T)) (cb : CommandBuffer T mat4)
      (r : List (InlineStateStack T) × CommandBuffer T mat4),
      dispatchDescriptorStacks ds cb = some r → ∀ d ∈ ds, d.Dispatchable
  | [], _, _, _ => by simp
  | d0 :: rest, cb, r, h => by
    simp only [dispatchDescriptorStacks] at h
    split at h
    · exact absurd h (by simp)
    · rename_i d1 cb1 h1
      split at h
      · exact absurd h (by simp)
      · rename_i rest1 cb2 h2
        intro d hd
        rcases List.mem_cons.mp hd with rfl | hd
        · exact inlineStack_dispatchable_of_dispatch _ _ _ h1
        · exact descriptorStacks_dispatchable_of_dispatch rest cb1 _ h2 d hd

/-- When the loop over the map entries returns, each was dispatchable. -/
theorem pushConstantsEntries_dispatchable_of_dispatch :
    ∀ (es : List (Nat × StateStack T)) (cb : CommandBuffer T mat4)
      (r : List (Nat × StateStack T) × CommandBuffer T mat4),
      dispatchPushConstantsEntries es cb = some r → ∀ e ∈ es, e.2.Dispatchable
  | [], _, _, _ => by simp
  | e0 :: rest, cb, r, h => by
    simp only [dispatchPushConstantsEntries] at h
    split at h
    · exact absurd h (by simp)
    · rename_i s1 cb1 h1
      split at h
      · exact absurd h (by simp)
      · rename_i rest1 cb2 h2
        intro e he
        rcases List.mem_cons.mp he with rfl | he
        · exact stateStack_dispatchable_of_dispatch _ _ _ h1
        · exact pushConstantsEntries_dispatchable_of_dispatch rest cb1 _ h2 e he

/-- When the map loop returns, each entry was dispatchable. -/
theorem pushConstantsMap_dispatchable_of_dispatch (m : PushConstantsMap T)
    (cb : CommandBuffer T mat4) (r : PushConstantsMap T × CommandBuffer T mat4)
    (h : m.dispatch cb = some r) : ∀ e ∈ m.entries, e.2.Dispatchable := by
  unfold PushConstantsMap.dispatch at h
  split at h
  · exact absurd h (by simp)
  · rename_i r0 h0
    exact pushConstantsEntries_dispatchable_of_dispatch _ _ _ h0

/-- When a pass of `State::dispatch` with the flag set returns, every dirty
constituent was non-empty. -/
theorem state_dispatchable_of_dispatch (layoutOf : Command T mat4 → Option L)
    (s : State T mat4) (cb : CommandBuffer T mat4)
    (r : State T mat4 × CommandBuffer T mat4) (hd : s.dirty = true)
    (h : s.dispatch layoutOf cb = some r) : s.Dispatchable := by
  simp only [State.dispatch, hd, if_true] at h
  split at h
  · exact absurd h (by simp)
  rename_i c1 cb1 h1
  split at h
  · exact absurd h (by simp)
  rename_i c2 cb2 h2
  split at h
  · exact absurd h (by simp)
  rename_i c3 cb3 h3
  split at h
  · exact absurd h (by simp)
  rename_i c4 cb4 h4
  split at h
  · exact absurd h (by simp)
  rename_i c5 cb5 h5
  split at h
  · exact absurd h (by simp)
  rename_i c6 cb6 h6
  split at h
  · exact absurd h (by simp)
  rename_i c7 cb7 h7
  exact ⟨stateStack_dispatchable_of_dispatch _ _ _ h1,
    stateStack_dispatchable_of_dispatch _ _ _ h2,
    descriptorStacks_dispatchable_of_dispatch _ _ _ h3,
    matrixStack_dispatchable_of_dispatch layoutOf _ _ _ h4,
    matrixStack_dispatchable_of_dispatch layoutOf _ _ _ h5,
    matrixStack_dispatchable_of_dispatch layoutOf _ _ _ h6,
    pushConstantsMap_dispatchable_of_dispatch _ _ _ h7⟩

/-- When a pass of `State::dispatch` with the flag set returns, a layout was
current by the time the first dirty matrix stack was dispatched. -/
theorem state_layoutReady_of_dispatch (layoutOf : Command T mat4 → Option L)
    (s : State T mat4) (cb : CommandBuffer T mat4)
    (r : State T mat4 × CommandBuffer T mat4) (hd : s.dirty = true)
    (h : s.dispatch layoutOf cb = some r) : s.LayoutReady layoutOf cb := by
  obtain ⟨h1, h2, h3, _, _, _, _⟩ := state_dispatchable_of_dispatch layoutOf s cb r hd h
  intro hany
  by_contra hnb
  simp only [State.dispatch, hd, if_true, stateStack_dispatch_eq _ _ h1,
    stateStack_dispatch_eq _ _ h2, dispatchDescriptorStacks_eq _ _ h3] at h
  cases hp : s.projectionMatrixStack.dirty with
  | true =>
    simp only [matrixStack_dispatch_of_unbound layoutOf _ _ hp hnb] at h
    exact absurd h (by simp)
  | false =>
    simp only [matrixStack_dispatch_of_clean layoutOf _ _ hp] at h
    cases hv : s.viewMatrixStack.dirty with
    | true =>
      simp only [matrixStack_dispatch_of_unbound layoutOf _ _ hv hnb] at h
      exact absurd h (by simp)
    | false =>
      simp only [matrixStack_dispatch_of_clean layoutOf _ _ hv] at h
      cases hm : s.modelMatrixStack.dirty with
      | true =>
        simp only [matrixStack_dispatch_of_unbound layoutOf _ _ hm hnb] at h
        exact absurd h (by simp)
      | false =>
        rw [hp, hv, hm] at hany
        exact absurd hany (by simp)

/-- After a pass of `State::dispatch` with the flag set, no constituent is
dirty and the flag is false. -/
theorem state_dispatch_result_clean (layoutOf : Command T mat4 → Option L)
    (s s' : State T mat4) (cb cb' : CommandBuffer T mat4)
    (hd : s.dirty = true) (h : s.dispatch layoutOf cb = some (s', cb')) :
    s'.dirty = false ∧ s'.anyConstituentDirty = false := by
  obtain ⟨s2, h2, e0, e1, e2, e3, e4, e5, e6, e7⟩ :=
    state_dispatch_eq layoutOf s cb hd (state_dispatchable_of_dispatch layoutOf s cb _ hd h)
      (state_layoutReady_of_dispatch layoutOf s cb _ hd h)
  rw [h] at h2
  simp only [Option.some.injEq, Prod.mk.injEq] at h2
  obtain ⟨rfl, _⟩ := h2
  refine ⟨e0, ?_⟩
  simp [State.anyConstituentDirty, e1, e2, e3, e4, e5, e6, e7, StateStack.cleared,
    InlineStateStack.cleared, MatrixStack.cleared]

/-- Counterexample to C4: the newly constructed `State` has its top-level flag
false while its projection, view and model stacks are dirty, so the flag is
not sound there. -/
theorem new_state_flag_not_sound :
    (State.new 0 : State Nat Nat).dirty = false ∧
    (State.new 0 : State Nat Nat).projectionMatrixStack.dirty = true ∧
    (State.new 0 : State Nat Nat).viewMatrixStack.dirty = true ∧
    (State.new 0 : State Nat Nat).modelMatrixStack.dirty = true ∧
    ¬ (State.new 0 : State Nat Nat).FlagSound := by
  decide

/-- C4 as amended: every `State` reached from construction by changes that
set the top-level flag and by `State::dispatch` has a sound top-level flag,
unless it still is the newly constructed `State`. -/
theorem flag_sound_of_reachable {T mat4 L : Type} (layoutOf : Command T mat4 → Option L)
    (identity : mat4) (s : State T mat4)
    (h : State.Reachable layoutOf identity s) : s.FlagSound ∨ s = State.new identity := by
  induction h with
  | new => exact Or.inr rfl
  | change s s' _ hd _ => exact Or.inl (fun _ => hd)
  | dispatch s s' cb cb' _ hdisp ih =>
    cases hd : s.dirty with
    | false =>
      rw [state_dispatch_of_clean layoutOf s cb hd] at hdisp
      simp only [Option.some.injEq, Prod.mk.injEq] at hdisp
      rw [← hdisp.1]
      exact ih
    | true =>
      have hc := state_dispatch_result_clean layoutOf s s' cb cb' hd hdisp
      left
      intro hany
      rw [hc.2] at hany
      exact absurd hany (by simp)

/-- Witness of the amended C4: the state reached from construction by a `set`
on the model stack with the flag set, followed by a dispatch pass on a buffer
on which the pipeline bind 1 has made a layout current. -/
theorem flag_sound_of_reachable_witness :
    State.Reachable exampleLayoutOf (0 : Nat)
      ({ (State.new 0 : State Nat Nat) with
          dirty := false
          projectionMatrixStack := (MatrixStack.new 0 0).cleared
          viewMatrixStack := (MatrixStack.new 0 64).cleared
          modelMatrixStack := ((MatrixStack.new 0 128).set 5).cleared }) ∧
    (({ (State.new 0 : State Nat Nat) with
          dirty := false
          projectionMatrixStack := (MatrixStack.new 0 0).cleared
          viewMatrixStack := (MatrixStack.new 0 64).cleared
          modelMatrixStack := ((MatrixStack.new 0 128).set 5).cleared }).FlagSound ∨
      ({ (State.new 0 : State Nat Nat) with
          dirty := false
          projectionMatrixStack := (MatrixStack.new 0 0).cleared
          viewMatrixStack := (MatrixStack.new 0 64).cleared
          modelMatrixStack := ((MatrixStack.new 0 128).set 5).cleared }) = State.new 0) :=
  have hr : State.Reachable exampleLayoutOf (0 : Nat)
      ({ (State.new 0 : State Nat Nat) with
          dirty := false
          projectionMatrixStack := (MatrixStack.new 0 0).cleared
          viewMatrixStack := (MatrixStack.new 0 64).cleared
          modelMatrixStack := ((MatrixStack.new 0 128).set 5).cleared }) :=
    State.Reachable.dispatch
      { (State.new 0 : State Nat Nat) with
          dirty := true, modelMatrixStack := (MatrixStack.new 0 128).set 5 }
      _ [Command.dispatch 1]
      [Command.dispatch 1, Command.vkCmdPushConstants 1 0 64 0,
        Command.vkCmdPushConstants 1 64 64 0, Command.vkCmdPushConstants 1 128 64 5]
      (State.Reachable.change (State.new 0) _ State.Reachable.new (by decide)) (by decide)
  ⟨hr, flag_sound_of_reachable exampleLayoutOf 0 _ hr⟩

end DispatchPass

/-! ## Emitted state is current -/

section EmittedCurrent

variable {T mat4 dmat4 L : Type}

/-- One call on a `StateStack` keeps: if clean with top `v`, the last recorded
call is the one for `v`. -/
theorem stateStack_step_current (st st' : StateStack T × CommandBuffer T mat4)
    (op : StackOp T) (h : StateStack.step st op = some st')
    (inv : st.1.dirty = false → ∀ v, st.1.top = some v →
      st.2.getLast? = some (Command.dispatch v)) :
    st'.1.dirty = false → ∀ v, st'.1.top = some v →
      st'.2.getLast? = some (Command.dispatch v) := by
  obtain ⟨⟨stack, dirty⟩, cb⟩ := st
  cases op with
  | push value =>
    simp only [StateStack.step, Option.some.injEq] at h
    subst h
    intro hd
    simp [StateStack.push] at hd
  | pop =>
    cases stack with
    | nil => simp [StateStack.step, StateStack.pop] at h
    | cons a rest =>
      simp only [StateStack.step, StateStack.pop, Option.some.injEq] at h
      subst h
      intro hd v hv
      cases rest with
      | nil => simp [StateStack.top] at hv
      | cons b rest2 => simp at hd
  | dispatch =>
    cases dirty with
    | false =>
      simp only [StateStack.step, StateStack.dispatch] at h
      simp only [Bool.false_eq_true, if_false, Option.some.injEq] at h
      subst h
      exact inv
    | true =>
      cases stack with
      | nil => simp [StateStack.step, StateStack.dispatch, StateStack.top] at h
      | cons a rest =>
        simp only [StateStack.step, StateStack.dispatch, StateStack.top, List.head?_cons,
          if_true, Option.some.injEq] at h
        subst h
        intro _ v hv
        simp only [StateStack.top, List.head?_cons, Option.some.injEq] at hv
        subst hv
        simp

/-- A sequence of calls on a `StateStack` keeps the same property. -/
theorem stateStack_run_current :
    ∀ (ops : List (StackOp T)) (st st' : StateStack T × CommandBuffer T mat4),
      StateStack.run ops st = some st' →
      (st.1.dirty = false → ∀ v, st.1.top = some v →
        st.2.getLast? = some (Command.dispatch v)) →
      st'.1.dirty = false → ∀ v, st'.1.top = some v →
        st'.2.getLast? = some (Command.dispatch v)
  | [], st, st', h, inv => by
    simp only [StateStack.run, Option.some.injEq] at h
    subst h
    exact inv
  | op :: ops, st, st', h, inv => by
    simp only [StateStack.run] at h
    split at h
    · exact absurd h (by simp)
    · rename_i st1 h1
      exact stateStack_run_current ops st1 st' h (stateStack_step_current st st1 op h1 inv)

/-- One call on an `InlineStateStack` keeps: if clean with top `v`, the last
recorded call is the inline one for `v`. -/
theorem inlineStack_step_current (st st' : InlineStateStack T × CommandBuffer T mat4)
    (op : StackOp T) (h : InlineStateStack.step st op = some st')
    (inv : st.1.dirty = false → ∀ v, st.1.top = some v →
      st.2.getLast? = some (Command.dispatchInline v)) :
    st'.1.dirty = false → ∀ v, st'.1.top = some v →
      st'.2.getLast? = some (Command.dispatchInline v) := by
  obtain ⟨⟨stack, dirty⟩, cb⟩ := st
  cases op with
  | push value =>
    simp only [InlineStateStack.step, Option.some.injEq] at h
    subst h
    intro hd
    simp [InlineStateStack.push] at hd
  | pop =>
    cases stack with
    | nil => simp [InlineStateStack.step, InlineStateStack.pop] at h
    | cons a rest =>
      simp only [InlineStateStack.step, InlineStateStack.pop, Option.some.injEq] at h
      subst h
      intro hd v hv
      cases rest with
      | nil => simp [InlineStateStack.top] at hv
      | cons b rest2 => simp at hd
  | dispatch =>
    cases dirty with
    | false =>
      simp only [InlineStateStack.step, InlineStateStack.dispatch] at h
      simp only [Bool.false_eq_true, if_false, Option.some.injEq] at h
      subst h
      exact inv
    | true =>
      cases stack with
      | nil => simp [InlineStateStack.step, InlineStateStack.dispatch, InlineStateStack.top] at h
      | cons a rest =>
        simp only [InlineStateStack.step, InlineStateStack.dispatch, InlineStateStack.top,
          List.head?_cons, if_true, Option.some.injEq] at h
        subst h
        intro _ v hv
        simp only [InlineStateStack.top, List.head?_cons, Option.some.injEq] at hv
        subst hv
        simp

/-- A sequence of calls on an `InlineStateStack` keeps the same property. -/
theorem inlineStack_run_current :
    ∀ (ops : List (StackOp T)) (st st' : InlineStateStack T × CommandBuffer T mat4),
      InlineStateStack.run ops st = some st' →
      (st.1.dirty = false → ∀ v, st.1.top = some v →
        st.2.getLast? = some (Command.dispatchInline v)) →
      st'.1.dirty = false → ∀ v, st'.1.top = some v →
        st'.2.getLast? = some (Command.dispatchInline v)
  | [], st, st', h, inv => by
    simp only [InlineStateStack.run, Option.some.injEq] at h
    subst h
    exact inv
  | op :: ops, st, st', h, inv => by
    simp only [InlineStateStack.run] at h
    split at h
    · exact absurd h (by simp)
    · rename_i st1 h1
      exact inlineStack_run_current ops st1 st' h (inlineStack_step_current st st1 op h1 inv)

/-- One call on a `MatrixStack` keeps: if clean with top `v`, the last
recorded call is the upload of `v` with the stack's flags and offset. -/
theorem matrixStack_step_current (layoutOf : Command T mat4 → Option L)
    (narrow : dmat4 → mat4)
    (st st' : MatrixStack mat4 × CommandBuffer T mat4)
    (op : MatrixOp mat4 dmat4) (h : MatrixStack.step layoutOf narrow st op = some st')
    (inv : st.1.dirty = false → ∀ v, st.1.top = some v →
      st.2.getLast? =
        some (Command.vkCmdPushConstants st.1.stageFlags st.1.offset sizeof_mat4 v)) :
    st'.1.dirty = false → ∀ v, st'.1.top = some v →
      st'.2.getLast? =
        some (Command.vkCmdPushConstants st'.1.stageFlags st'.1.offset sizeof_mat4 v) := by
  obtain ⟨⟨stack, flags, offset, dirty⟩, cb⟩ := st
  cases op with
  | set matrix =>
    simp only [MatrixStack.step, Option.some.injEq] at h
    subst h
    intro hd
    simp [MatrixStack.set] at hd
  | setDouble matrix =>
    simp only [MatrixStack.step, Option.some.injEq] at h
    subst h
    intro hd
    simp [MatrixStack.setDouble] at hd
  | push matrix =>
    simp only [MatrixStack.step, Option.some.injEq] at h
    subst h
    intro hd
    simp [MatrixStack.push] at hd
  | pop =>
    cases stack with
    | nil => simp [MatrixStack.step, MatrixStack.pop] at h
    | cons a rest =>
      simp only [MatrixStack.step, MatrixStack.pop, Option.some.injEq] at h
      subst h
      intro hd
      simp at hd
  | dispatch =>
    obtain ⟨s', cb'⟩ := st'
    rcases matrixStack_dispatch_cases layoutOf _ s' cb cb' h with
      ⟨_, rfl, rfl⟩ | ⟨_, m, hm, rfl, rfl⟩
    · exact inv
    · intro _ v hv
      have hvm : some v = some m := hv.symm.trans hm
      simp only [Option.some.injEq] at hvm
      subst hvm
      simp

/-- A sequence of calls on a `MatrixStack` keeps the same property. -/
theorem matrixStack_run_current (layoutOf : Command T mat4 → Option L)
    (narrow : dmat4 → mat4) :
    ∀ (ops : List (MatrixOp mat4 dmat4)) (st st' : MatrixStack mat4 × CommandBuffer T mat4),
      MatrixStack.run layoutOf narrow ops st = some st' →
      (st.1.dirty = false → ∀ v, st.1.top = some v →
        st.2.getLast? =
          some (Command.vkCmdPushConstants st.1.stageFlags st.1.offset sizeof_mat4 v)) →
      st'.1.dirty = false → ∀ v, st'.1.top = some v →
        st'.2.getLast? =
          some (Command.vkCmdPushConstants st'.1.stageFlags st'.1.offset sizeof_mat4 v)
  | [], st, st', h, inv => by
    simp only [MatrixStack.run, Option.some.injEq] at h
    subst h
    exact inv
  | op :: ops, st, st', h, inv => by
    simp only [MatrixStack.run] at h
    split at h
    · exact absurd h (by simp)
    · rename_i st1 h1
      exact matrixStack_run_current layoutOf narrow ops st1 st' h
        (matrixStack_step_current layoutOf narrow st st1 op h1 inv)

/-- One call on a `MatrixStack` leaves `stageFlags` and `offset` as they are. -/
theorem matrixStack_step_fields (layoutOf : Command T mat4 → Option L)
    (narrow : dmat4 → mat4)
    (st st' : MatrixStack mat4 × CommandBuffer T mat4)
    (op : MatrixOp mat4 dmat4) (h : MatrixStack.step layoutOf narrow st op = some st') :
    st'.1.stageFlags = st.1.stageFlags ∧ st'.1.offset = st.1.offset := by
  obtain ⟨⟨stack, flags, offset, dirty⟩, cb⟩ := st
  cases op with
  | set matrix =>
    simp only [MatrixStack.step, Option.some.injEq] at h
    subst h
    exact ⟨rfl, rfl⟩
  | setDouble matrix =>
    simp only [MatrixStack.step, Option.some.injEq] at h
    subst h
    exact ⟨rfl, rfl⟩
  | push matrix =>
    simp only [MatrixStack.step, Option.some.injEq] at h
    subst h
    exact ⟨rfl, rfl⟩
  | pop =>
    cases stack with
    | nil => simp [MatrixStack.step, MatrixStack.pop] at h
    | cons a rest =>
      simp only [MatrixStack.step, MatrixStack.pop, Option.some.injEq] at h
      subst h
      exact ⟨rfl, rfl⟩
  | dispatch =>
    obtain ⟨s', cb'⟩ := st'
    rcases matrixStack_dispatch_cases layoutOf _ s' cb cb' h with
      ⟨_, rfl, rfl⟩ | ⟨_, m, hm, rfl, rfl⟩
    · exact ⟨rfl, rfl⟩
    · exact ⟨rfl, rfl⟩

/-- A sequence of calls on a `MatrixStack` leaves `stageFlags` and `offset`
as they are. -/
theorem matrixStack_run_fields (layoutOf : Command T mat4 → Option L)
    (narrow : dmat4 → mat4) :
    ∀ (ops : List (MatrixOp mat4 dmat4)) (st st' : MatrixStack mat4 × CommandBuffer T mat4),
      MatrixStack.run layoutOf narrow ops st = some st' →
        st'.1.stageFlags = st.1.stageFlags ∧ st'.1.offset = st.1.offset
  | [], st, st', h => by
    simp only [MatrixStack.run, Option.some.injEq] at h
    subst h
    exact ⟨rfl, rfl⟩
  | op :: ops, st, st', h => by
    simp only [MatrixStack.run] at h
    split at h
    · exact absurd h (by simp)
    · rename_i st1 h1
      have h2 := matrixStack_run_fields layoutOf narrow ops st1 st' h
      have h3 := matrixStack_step_fields layoutOf narrow st st1 op h1
      exact ⟨h2.1.trans h3.1, h2.2.trans h3.2⟩

/-- C7 (emitted state is current): after any defined sequence of calls on a
newly constructed `StateStack`, `InlineStateStack` (push, pop, dispatch) or
`MatrixStack` (set, push, pop, dispatch; on any buffer `cb0`, since its
uploads need a buffer with a current layout), if the stack is non-empty and
its dirty flag is false then the last call it recorded is the one for its
current top frame. -/
theorem clean_stack_top_was_emitted {T mat4 dmat4 L : Type}
    (layoutOf : Command T mat4 → Option L) (identity : mat4)
    (in_offset : Nat) (narrow : dmat4 → mat4) :
    (∀ (ops : List (StackOp T)) (s : StateStack T) (cb : CommandBuffer T mat4),
      StateStack.run ops (StateStack.new, []) = some (s, cb) →
      s.dirty = false → ∀ v, s.top = some v →
        cb.getLast? = some (Command.dispatch v)) ∧
    (∀ (ops : List (StackOp T)) (s : InlineStateStack T) (cb : CommandBuffer T mat4),
      InlineStateStack.run ops (InlineStateStack.new, []) = some (s, cb) →
      s.dirty = false → ∀ v, s.top = some v →
        cb.getLast? = some (Command.dispatchInline v)) ∧
    (∀ (cb0 : CommandBuffer T mat4) (ops : List (MatrixOp mat4 dmat4))
      (s : MatrixStack mat4) (cb : CommandBuffer T mat4),
      MatrixStack.run layoutOf narrow ops (MatrixStack.new identity in_offset, cb0) =
        some (s, cb) →
      s.dirty = false → ∀ v, s.top = some v →
        cb.getLast? =
          some (Command.vkCmdPushConstants VK_SHADER_STAGE_VERTEX_BIT in_offset 64 v)) := by
  refine ⟨?_, ?_, ?_⟩
  · intro ops s cb h
    exact stateStack_run_current ops _ (s, cb) h (by simp [StateStack.new, StateStack.top])
  · intro ops s cb h
    exact inlineStack_run_current ops _ (s, cb) h
      (by simp [InlineStateStack.new, InlineStateStack.top])
  · intro cb0 ops s cb h hd v hv
    have hcur := matrixStack_run_current layoutOf narrow ops _ (s, cb) h
      (by simp [MatrixStack.new]) hd v hv
    have hf := matrixStack_run_fields layoutOf narrow ops _ (s, cb) h
    simp only [MatrixStack.new] at hf
    rw [hcur, hf.1, hf.2]
    rfl

/-- Witness of C7: push, push, dispatch on a new generic stack leaves it clean
with the second value on top and that value's call recorded last; on a new
`MatrixStack`, dispatch, set, push, dispatch does the same for the pushed
matrix, on a buffer on which the pipeline bind 1 has made a layout
current. -/
theorem clean_stack_top_was_emitted_witness :
    (StateStack.run [StackOp.push 1, StackOp.push 2, StackOp.dispatch]
        (StateStack.new, ([] : CommandBuffer Nat Nat)) =
        some (⟨[2, 1], false⟩, [Command.dispatch 2]) ∧
      (⟨[2, 1], false⟩ : StateStack Nat).dirty = false ∧
      (⟨[2, 1], false⟩ : StateStack Nat).top = some 2 ∧
      ([Command.dispatch 2] : CommandBuffer Nat Nat).getLast? = some (Command.dispatch 2)) ∧
    (InlineStateStack.run [StackOp.push 1, StackOp.push 2, StackOp.dispatch]
        (InlineStateStack.new, ([] : CommandBuffer Nat Nat)) =
        some (⟨[2, 1], false⟩, [Command.dispatchInline 2]) ∧
      (⟨[2, 1], false⟩ : InlineStateStack Nat).dirty = false ∧
      (⟨[2, 1], false⟩ : InlineStateStack Nat).top = some 2 ∧
      ([Command.dispatchInline 2] : CommandBuffer Nat Nat).getLast? =
        some (Command.dispatchInline 2)) ∧
    (MatrixStack.run exampleLayoutOf (fun d : Nat => d + 100)
        [MatrixOp.dispatch, MatrixOp.set 5, MatrixOp.push 6, MatrixOp.dispatch]
        (MatrixStack.new 0 64, ([Command.dispatch 1] : CommandBuffer Nat Nat)) =
        some (⟨[6, 5], 1, 64, false⟩,
          [Command.dispatch 1, Command.vkCmdPushConstants 1 64 64 0,
            Command.vkCmdPushConstants 1 64 64 6]) ∧
      (⟨[6, 5], 1, 64, false⟩ : MatrixStack Nat).dirty = false ∧
      (⟨[6, 5], 1, 64, false⟩ : MatrixStack Nat).top = some 6 ∧
      ([Command.dispatch 1, Command.vkCmdPushConstants 1 64 64 0,
          Command.vkCmdPushConstants 1 64 64 6] : CommandBuffer Nat Nat).getLast? =
          some (Command.vkCmdPushConstants VK_SHADER_STAGE_VERTEX_BIT 64 64 6)) :=
  ⟨⟨by decide, by decide, by decide,
      (clean_stack_top_was_emitted exampleLayoutOf (0 : Nat) 64 (fun d : Nat => d + 100)).1
        [StackOp.push 1, StackOp.push 2, StackOp.dispatch] ⟨[2, 1], false⟩
        [Command.dispatch 2] (by decide) (by decide) 2 (by decide)⟩,
    ⟨by decide, by decide, by decide,
      (clean_stack_top_was_emitted exampleLayoutOf (0 : Nat) 64
        (fun d : Nat => d + 100)).2.1
        [StackOp.push 1, StackOp.push 2, StackOp.dispatch] ⟨[2, 1], false⟩
        [Command.dispatchInline 2] (by decide) (by decide) 2 (by decide)⟩,
    ⟨by decide, by decide, by decide,
      (clean_stack_top_was_emitted exampleLayoutOf (0 : Nat) 64
        (fun d : Nat => d + 100)).2.2 [Command.dispatch 1]
        [MatrixOp.dispatch, MatrixOp.set 5, MatrixOp.push 6, MatrixOp.dispatch]
        ⟨[6, 5], 1, 64, false⟩
        [Command.dispatch 1, Command.vkCmdPushConstants 1 64 64 0,
          Command.vkCmdPushConstants 1 64 64 6]
        (by decide) (by decide) 6 (by decide)⟩⟩

end EmittedCurrent

/-! ## Emission and change -/

section EmissionAndChange

variable {T mat4 : Type}

/-- A `StateStack` returned by `dispatch` is clean. -/
theorem stateStack_dispatch_result_clean (s0 s : StateStack T) (cb0 cb : CommandBuffer T mat4)
    (h : s0.dispatch cb0 = some (s, cb)) : s.dirty = false := by
  cases hd : s0.dirty with
  | false =>
    rw [stateStack_dispatch_of_clean s0 cb0 hd] at h
    simp only [Option.some.injEq, Prod.mk.injEq] at h
    rw [← h.1]
    exact hd
  | true =>
    obtain ⟨v, hv⟩ := exists_head_of_ne_nil s0.stack
      (stateStack_dispatchable_of_dispatch s0 cb0 _ h hd)
    rw [stateStack_dispatch_of_dirty s0 cb0 v hd hv] at h
    simp only [Option.some.injEq, Prod.mk.injEq] at h
    rw [← h.1]

/-- On a clean `StateStack` a sequence of `dispatch` calls alone changes nothing. -/
theorem stateStack_run_dispatches_of_clean :
    ∀ (ops : List (StackOp T)) (s : StateStack T) (cb : CommandBuffer T mat4),
      s.dirty = false → (∀ op ∈ ops, op = StackOp.dispatch) →
        StateStack.run ops (s, cb) = some (s, cb)
  | [], _, _, _, _ => rfl
  | op :: ops, s, cb, hd, hall => by
    have hop : op = StackOp.dispatch := hall op (List.mem_cons_self _ _)
    subst hop
    simp only [StateStack.run, StateStack.step, stateStack_dispatch_of_clean s cb hd]
    exact stateStack_run_dispatches_of_clean ops s cb hd
      (fun op h => hall op (List.mem_cons_of_mem _ h))

/-- Starting from a clean `StateStack`, a `dispatch` that records something comes
after a `push` or `pop`, and records exactly the call for the top frame. -/
theorem stateStack_emits_after_change (s s2 s3 : StateStack T) (cb cb2 cb3 : CommandBuffer T mat4)
    (ops : List (StackOp T)) (hd : s.dirty = false)
    (hrun : StateStack.run ops (s, cb) = some (s2, cb2))
    (hdisp : s2.dispatch cb2 = some (s3, cb3)) (hne : cb3 ≠ cb2) :
    (∃ op ∈ ops, op ≠ StackOp.dispatch) ∧
      ∃ v, s2.top = some v ∧ cb3 = cb2 ++ [Command.dispatch v] := by
  constructor
  · by_contra hcon
    have hall : ∀ op ∈ ops, op = StackOp.dispatch := by
      intro op hop
      by_contra hx
      exact hcon ⟨op, hop, hx⟩
    rw [stateStack_run_dispatches_of_clean ops s cb hd hall] at hrun
    simp only [Option.some.injEq, Prod.mk.injEq] at hrun
    obtain ⟨rfl, rfl⟩ := hrun
    rw [stateStack_dispatch_of_clean s cb hd] at hdisp
    simp only [Option.some.injEq, Prod.mk.injEq] at hdisp
    exact hne hdisp.2.symm
  · cases hd2 : s2.dirty with
    | false =>
      rw [stateStack_dispatch_of_clean s2 cb2 hd2] at hdisp
      simp only [Option.some.injEq, Prod.mk.injEq] at hdisp
      exact absurd hdisp.2.symm hne
    | true =>
      obtain ⟨v, hv⟩ := exists_head_of_ne_nil s2.stack
        (stateStack_dispatchable_of_dispatch s2 cb2 _ hdisp hd2)
      rw [stateStack_dispatch_of_dirty s2 cb2 v hd2 hv] at hdisp
      simp only [Option.some.injEq, Prod.mk.injEq] at hdisp
      exact ⟨v, hv, hdisp.2.symm⟩

/-- A `InlineStateStack` returned by `dispatch` is clean. -/
theorem inlineStack_dispatch_result_clean (s0 s : InlineStateStack T) (cb0 cb : CommandBuffer T mat4)
    (h : s0.dispatch cb0 = some (s, cb)) : s.dirty = false := by
  cases hd : s0.dirty with
  | false =>
    rw [inlineStack_dispatch_of_clean s0 cb0 hd] at h
    simp only [Option.some.injEq, Prod.mk.injEq] at h
    rw [← h.1]
    exact hd
  | true =>
    obtain ⟨v, hv⟩ := exists_head_of_ne_nil s0.stack
      (inlineStack_dispatchable_of_dispatch s0 cb0 _ h hd)
    rw [inlineStack_dispatch_of_dirty s0 cb0 v hd hv] at h
    simp only [Option.some.injEq, Prod.mk.injEq] at h
    rw [← h.1]

/-- On a clean `InlineStateStack` a sequence of `dispatch` calls alone changes nothing. -/
theorem inlineStack_run_dispatches_of_clean :
    ∀ (ops : List (StackOp T)) (s : InlineStateStack T) (cb : CommandBuffer T mat4),
      s.dirty = false → (∀ op ∈ ops, op = StackOp.dispatch) →
        InlineStateStack.run ops (s, cb) = some (s, cb)
  | [], _, _, _, _ => rfl
  | op :: ops, s, cb, hd, hall => by
    have hop : op = StackOp.dispatch := hall op (List.mem_cons_self _ _)
    subst hop
    simp only [InlineStateStack.run, InlineStateStack.step, inlineStack_dispatch_of_clean s cb hd]
    exact inlineStack_run_dispatches_of_clean ops s cb hd
      (fun op h => hall op (List.mem_cons_of_mem _ h))

/-- Starting from a clean `InlineStateStack`, a `dispatch` that records something comes
after a `push` or `pop`, and records exactly the call for the top frame. -/
theorem inlineStack_emits_after_change (s s2 s3 : InlineStateStack T) (cb cb2 cb3 : CommandBuffer T mat4)
    (ops : List (StackOp T)) (hd : s.dirty = false)
    (hrun : InlineStateStack.run ops (s, cb) = some (s2, cb2))
    (hdisp : s2.dispatch cb2 = some (s3, cb3)) (hne : cb3 ≠ cb2) :
    (∃ op ∈ ops, op ≠ StackOp.dispatch) ∧
      ∃ v, s2.top = some v ∧ cb3 = cb2 ++ [Command.dispatchInline v] := by
  constructor
  · by_contra hcon
    have hall : ∀ op ∈ ops, op = StackOp.dispatch := by
      intro op hop
      by_contra hx
      exact hcon ⟨op, hop, hx⟩
    rw [inlineStack_run_dispatches_of_clean ops s cb hd hall] at hrun
    simp only [Option.some.injEq, Prod.mk.injEq] at hrun
    obtain ⟨rfl, rfl⟩ := hrun
    rw [inlineStack_dispatch_of_clean s cb hd] at hdisp
    simp only [Option.some.injEq, Prod.mk.injEq] at hdisp
    exact hne hdisp.2.symm
  · cases hd2 : s2.dirty with
    | false =>
      rw [inlineStack_dispatch_of_clean s2 cb2 hd2] at hdisp
      simp only [Option.some.injEq, Prod.mk.injEq] at hdisp
      exact absurd hdisp.2.symm hne
    | true =>
      obtain ⟨v, hv⟩ := exists_head_of_ne_nil s2.stack
        (inlineStack_dispatchable_of_dispatch s2 cb2 _ hdisp hd2)
      rw [inlineStack_dispatch_of_dirty s2 cb2 v hd2 hv] at hdisp
      simp only [Option.some.injEq, Prod.mk.injEq] at hdisp
      exact ⟨v, hv, hdisp.2.symm⟩

/-- Counterexample to C8: after push 1, dispatch, push 2, pop the top frame is
the frame emitted last, yet the stack is dirty and the next dispatch records
its call again, so the same value is recorded twice in a row. -/
theorem same_value_emitted_twice :
    StateStack.run [StackOp.push 1, StackOp.dispatch, StackOp.push 2, StackOp.pop]
        (StateStack.new, ([] : CommandBuffer Nat Nat)) =
      some (⟨[1], true⟩, [Command.dispatch 1]) ∧
    (⟨[1], true⟩ : StateStack Nat).dispatch ([Command.dispatch 1] : CommandBuffer Nat Nat) =
      some (⟨[1], false⟩, [Command.dispatch 1, Command.dispatch 1]) ∧
    InlineStateStack.run [StackOp.push 1, StackOp.dispatch, StackOp.push 2, StackOp.pop]
        (InlineStateStack.new, ([] : CommandBuffer Nat Nat)) =
      some (⟨[1], true⟩, [Command.dispatchInline 1]) ∧
    (⟨[1], true⟩ : InlineStateStack Nat).dispatch
        ([Command.dispatchInline 1] : CommandBuffer Nat Nat) =
      some (⟨[1], false⟩, [Command.dispatchInline 1, Command.dispatchInline 1]) := by
  decide

/-- C8 as amended: on a `StateStack` or `InlineStateStack` that is newly
constructed or was just returned by `dispatch`, after any defined sequence of
push / pop / dispatch calls a further `dispatch` that records something comes
after at least one `push` or `pop` in that sequence, and what it records is
exactly one call, the one for the current top frame. -/
theorem dispatch_emits_only_after_change {T mat4 : Type} :
    (∀ (s s2 s3 : StateStack T) (cb cb2 cb3 : CommandBuffer T mat4)
      (ops : List (StackOp T)),
      (s = StateStack.new ∨
        ∃ (s0 : StateStack T) (cb0 : CommandBuffer T mat4), s0.dispatch cb0 = some (s, cb)) →
      StateStack.run ops (s, cb) = some (s2, cb2) →
      s2.dispatch cb2 = some (s3, cb3) → cb3 ≠ cb2 →
        (∃ op ∈ ops, op ≠ StackOp.dispatch) ∧
          ∃ v, s2.top = some v ∧ cb3 = cb2 ++ [Command.dispatch v]) ∧
    (∀ (s s2 s3 : InlineStateStack T) (cb cb2 cb3 : CommandBuffer T mat4)
      (ops : List (StackOp T)),
      (s = InlineStateStack.new ∨
        ∃ (s0 : InlineStateStack T) (cb0 : CommandBuffer T mat4),
          s0.dispatch cb0 = some (s, cb)) →
      InlineStateStack.run ops (s, cb) = some (s2, cb2) →
      s2.dispatch cb2 = some (s3, cb3) → cb3 ≠ cb2 →
        (∃ op ∈ ops, op ≠ StackOp.dispatch) ∧
          ∃ v, s2.top = some v ∧ cb3 = cb2 ++ [Command.dispatchInline v]) := by
  constructor
  · intro s s2 s3 cb cb2 cb3 ops hstart hrun hdisp hne
    have hd : s.dirty = false := by
      rcases hstart with rfl | ⟨s0, cb0, h0⟩
      · rfl
      · exact stateStack_dispatch_result_clean s0 s cb0 cb h0
    exact stateStack_emits_after_change s s2 s3 cb cb2 cb3 ops hd hrun hdisp hne
  · intro s s2 s3 cb cb2 cb3 ops hstart hrun hdisp hne
    have hd : s.dirty = false := by
      rcases hstart with rfl | ⟨s0, cb0, h0⟩
      · rfl
      · exact inlineStack_dispatch_result_clean s0 s cb0 cb h0
    exact inlineStack_emits_after_change s s2 s3 cb cb2 cb3 ops hd hrun hdisp hne

/-- Witness of the amended C8: after a dispatch, push 2 then pop precede the
dispatch that records the call for 1 a second time. -/
theorem dispatch_emits_only_after_change_witness :
    (((⟨[1], false⟩ : StateStack Nat) = StateStack.new ∨
        ∃ (s0 : StateStack Nat) (cb0 : CommandBuffer Nat Nat), s0.dispatch cb0 =
          some ((⟨[1], false⟩ : StateStack Nat), ([Command.dispatch 1] : CommandBuffer Nat Nat))) ∧
      StateStack.run [StackOp.push 2, StackOp.pop]
          ((⟨[1], false⟩ : StateStack Nat), ([Command.dispatch 1] : CommandBuffer Nat Nat)) =
        some (⟨[1], true⟩, [Command.dispatch 1]) ∧
      (⟨[1], true⟩ : StateStack Nat).dispatch ([Command.dispatch 1] : CommandBuffer Nat Nat) =
        some (⟨[1], false⟩, [Command.dispatch 1, Command.dispatch 1]) ∧
      ([Command.dispatch 1, Command.dispatch 1] : CommandBuffer Nat Nat) ≠
        [Command.dispatch 1]) ∧
    ((∃ op ∈ [StackOp.push 2, StackOp.pop], op ≠ StackOp.dispatch) ∧
      ∃ v, (⟨[1], true⟩ : StateStack Nat).top = some v ∧
        ([Command.dispatch 1, Command.dispatch 1] : CommandBuffer Nat Nat) =
          [Command.dispatch 1] ++ [Command.dispatch v]) :=
  have hstart : ((⟨[1], false⟩ : StateStack Nat) = StateStack.new ∨
      ∃ (s0 : StateStack Nat) (cb0 : CommandBuffer Nat Nat), s0.dispatch cb0 =
        some ((⟨[1], false⟩ : StateStack Nat), ([Command.dispatch 1] : CommandBuffer Nat Nat))) :=
    Or.inr ⟨⟨[1], true⟩, [], by decide⟩
  ⟨⟨hstart, by decide, by decide, by decide⟩,
    (@dispatch_emits_only_after_change Nat Nat).1 ⟨[1], false⟩ ⟨[1], true⟩
      ⟨[1], false⟩ [Command.dispatch 1] [Command.dispatch 1]
      [Command.dispatch 1, Command.dispatch 1] [StackOp.push 2, StackOp.pop]
      hstart (by decide) (by decide) (by decide)⟩

end EmissionAndChange

/-! ## Push and pop -/

section PushPop

variable {T mat4 : Type}

/-- Frames of a `StateStack` after pushing a list of values. -/
theorem stateStack_pushAll_stack :
    ∀ (values : List T) (s : StateStack T),
      (s.pushAll values).stack = values.reverse ++ s.stack
  | [], s => by simp [StateStack.pushAll]
  | v :: rest, s => by
    have ih := stateStack_pushAll_stack rest (s.push v)
    simp only [StateStack.pushAll, List.foldl_cons] at ih ⊢
    rw [ih]
    simp [StateStack.push]

/-- Popping as many frames as lie above the frames `F` of a `StateStack`, at least
one, leaves exactly `F` with `dirty = !F.empty()`. -/
theorem stateStack_popN_prefix (F : List T) :
    ∀ (above : List T) (s : StateStack T), above ≠ [] → s.stack = above ++ F →
      StateStack.popN above.length s = some { stack := F, dirty := !F.isEmpty }
  | [], _, h, _ => absurd rfl h
  | [a], s, _, hs => by
    simp only [List.length_singleton, StateStack.popN, StateStack.pop, hs, List.singleton_append]
  | a :: b :: rest, s, _, hs => by
    have ih := stateStack_popN_prefix F (b :: rest)
      { stack := b :: rest ++ F, dirty := !(b :: rest ++ F).isEmpty } (by simp) rfl
    simp only [List.length_cons, StateStack.popN, StateStack.pop, hs, List.cons_append] at ih ⊢
    exact ih

/-- Frames of a `InlineStateStack` after pushing a list of values. -/
theorem inlineStack_pushAll_stack :
    ∀ (values : List T) (s : InlineStateStack T),
      (s.pushAll values).stack = values.reverse ++ s.stack
  | [], s => by simp [InlineStateStack.pushAll]
  | v :: rest, s => by
    have ih := inlineStack_pushAll_stack rest (s.push v)
    simp only [InlineStateStack.pushAll, List.foldl_cons] at ih ⊢
    rw [ih]
    simp [InlineStateStack.push]

/-- Popping as many frames as lie above the frames `F` of a `InlineStateStack`, at least
one, leaves exactly `F` with `dirty = !F.empty()`. -/
theorem inlineStack_popN_prefix (F : List T) :
    ∀ (above : List T) (s : InlineStateStack T), above ≠ [] → s.stack = above ++ F →
      InlineStateStack.popN above.length s = some { stack := F, dirty := !F.isEmpty }
  | [], _, h, _ => absurd rfl h
  | [a], s, _, hs => by
    simp only [List.length_singleton, InlineStateStack.popN, InlineStateStack.pop, hs, List.singleton_append]
  | a :: b :: rest, s, _, hs => by
    have ih := inlineStack_popN_prefix F (b :: rest)
      { stack := b :: rest ++ F, dirty := !(b :: rest ++ F).isEmpty } (by simp) rfl
    simp only [List.length_cons, InlineStateStack.popN, InlineStateStack.pop, hs, List.cons_append] at ih ⊢
    exact ih

/-- C9 (push/pop round trip): for a `StateStack` or `InlineStateStack` with
frames `F` and a non-empty list of values, pushing all the values and then,
whatever the dirty flag has become in between, popping as many times returns
a stack with frames exactly `F` and `dirty = (F is non-empty)`; from an empty
stack the result is the empty stack with `dirty = false`. -/
theorem push_pop_round_trip {T : Type} (values : List T) (hv : values ≠ []) :
    (∀ (s : StateStack T) (between : Bool),
      StateStack.popN values.length { s.pushAll values with dirty := between } =
        some { stack := s.stack, dirty := !s.stack.isEmpty }) ∧
    (∀ (s : InlineStateStack T) (between : Bool),
      InlineStateStack.popN values.length { s.pushAll values with dirty := between } =
        some { stack := s.stack, dirty := !s.stack.isEmpty }) ∧
    (∀ between : Bool,
      StateStack.popN values.length
        { (StateStack.new : StateStack T).pushAll values with dirty := between } =
        some { stack := [], dirty := false }) ∧
    (∀ between : Bool,
      InlineStateStack.popN values.length
        { (InlineStateStack.new : InlineStateStack T).pushAll values with dirty := between } =
        some { stack := [], dirty := false }) := by
  have hr : values.reverse ≠ [] := by simpa using hv
  have h1 : ∀ (s : StateStack T) (between : Bool),
      StateStack.popN values.length { s.pushAll values with dirty := between } =
        some { stack := s.stack, dirty := !s.stack.isEmpty } := by
    intro s between
    have h := stateStack_popN_prefix s.stack values.reverse
      { s.pushAll values with dirty := between } hr (stateStack_pushAll_stack values s)
    rwa [List.length_reverse] at h
  have h2 : ∀ (s : InlineStateStack T) (between : Bool),
      InlineStateStack.popN values.length { s.pushAll values with dirty := between } =
        some { stack := s.stack, dirty := !s.stack.isEmpty } := by
    intro s between
    have h := inlineStack_popN_prefix s.stack values.reverse
      { s.pushAll values with dirty := between } hr (inlineStack_pushAll_stack values s)
    rwa [List.length_reverse] at h
  exact ⟨h1, h2, fun b => h1 StateStack.new b, fun b => h2 InlineStateStack.new b⟩

/-- Witness of C9: the values 1, 2, 3. -/
theorem push_pop_round_trip_witness :
    ([1, 2, 3] : List Nat) ≠ [] ∧
    ((∀ (s : StateStack Nat) (between : Bool),
      StateStack.popN [1, 2, 3].length { s.pushAll [1, 2, 3] with dirty := between } =
        some { stack := s.stack, dirty := !s.stack.isEmpty }) ∧
    (∀ (s : InlineStateStack Nat) (between : Bool),
      InlineStateStack.popN [1, 2, 3].length { s.pushAll [1, 2, 3] with dirty := between } =
        some { stack := s.stack, dirty := !s.stack.isEmpty }) ∧
    (∀ between : Bool,
      StateStack.popN [1, 2, 3].length
        { (StateStack.new : StateStack Nat).pushAll [1, 2, 3] with dirty := between } =
        some { stack := [], dirty := false }) ∧
    (∀ between : Bool,
      InlineStateStack.popN [1, 2, 3].length
        { (InlineStateStack.new : InlineStateStack Nat).pushAll [1, 2, 3] with
          dirty := between } =
        some { stack := [], dirty := false })) :=
  ⟨by decide, push_pop_round_trip [1, 2, 3] (by decide)⟩

/-- C10 (pop sets dirty from emptiness): on a non-empty `StateStack` or
`InlineStateStack`, whatever its dirty flag, `pop` removes exactly the top
frame and sets dirty to true exactly when frames remain; when frames remain
the next `dispatch` records exactly one call, the one for the newly exposed
frame; and after push(a), push(b), dispatch, pop the next dispatch records
the call for `a`. -/
theorem pop_sets_dirty_from_emptiness {T mat4 : Type}
    (g : StateStack T) (i : InlineStateStack T)
    (hg : g.stack ≠ []) (hi : i.stack ≠ []) :
    (∃ g1 : StateStack T, g.pop = some g1 ∧ g1.stack = g.stack.tail ∧
      (g1.dirty = true ↔ g1.stack ≠ []) ∧
      (g1.stack ≠ [] → ∀ cb : CommandBuffer T mat4, ∃ v g2, g1.top = some v ∧
        g1.dispatch cb = some (g2, cb ++ [Command.dispatch v]))) ∧
    (∃ i1 : InlineStateStack T, i.pop = some i1 ∧ i1.stack = i.stack.tail ∧
      (i1.dirty = true ↔ i1.stack ≠ []) ∧
      (i1.stack ≠ [] → ∀ cb : CommandBuffer T mat4, ∃ v i2, i1.top = some v ∧
        i1.dispatch cb = some (i2, cb ++ [Command.dispatchInline v]))) ∧
    (∀ (a b : T) (cb : CommandBuffer T mat4),
      StateStack.run
          [StackOp.push a, StackOp.push b, StackOp.dispatch, StackOp.pop, StackOp.dispatch]
          (StateStack.new, cb) =
        some (⟨[a], false⟩, cb ++ [Command.dispatch b, Command.dispatch a]) ∧
      InlineStateStack.run
          [StackOp.push a, StackOp.push b, StackOp.dispatch, StackOp.pop, StackOp.dispatch]
          (InlineStateStack.new, cb) =
        some (⟨[a], false⟩, cb ++ [Command.dispatchInline b, Command.dispatchInline a])) := by
  refine ⟨?_, ?_, ?_⟩
  · obtain ⟨stack, dirty⟩ := g
    cases stack with
    | nil => exact absurd rfl hg
    | cons top rest =>
      refine ⟨⟨rest, !rest.isEmpty⟩, rfl, rfl, ?_, ?_⟩
      · cases rest <;> simp
      · intro hne cb
        cases rest with
        | nil => exact absurd rfl hne
        | cons v rest2 =>
          exact ⟨v, _, rfl, stateStack_dispatch_of_dirty _ cb v rfl rfl⟩
  · obtain ⟨stack, dirty⟩ := i
    cases stack with
    | nil => exact absurd rfl hi
    | cons top rest =>
      refine ⟨⟨rest, !rest.isEmpty⟩, rfl, rfl, ?_, ?_⟩
      · cases rest <;> simp
      · intro hne cb
        cases rest with
        | nil => exact absurd rfl hne
        | cons v rest2 =>
          exact ⟨v, _, rfl, inlineStack_dispatch_of_dirty _ cb v rfl rfl⟩
  · intro a b cb
    constructor
    · simp [StateStack.run, StateStack.step, StateStack.push, StateStack.pop,
        StateStack.dispatch, StateStack.top, StateStack.new]
    · simp [InlineStateStack.run, InlineStateStack.step, InlineStateStack.push,
        InlineStateStack.pop, InlineStateStack.dispatch, InlineStateStack.top,
        InlineStateStack.new]

/-- Witness of C10: stacks holding two frames, clean after a dispatch. -/
theorem pop_sets_dirty_from_emptiness_witness :
    ((⟨[2, 1], false⟩ : StateStack Nat).stack ≠ [] ∧
      (⟨[4, 3], false⟩ : InlineStateStack Nat).stack ≠ []) ∧
    ((∃ g1 : StateStack Nat, (⟨[2, 1], false⟩ : StateStack Nat).pop = some g1 ∧
      g1.stack = (⟨[2, 1], false⟩ : StateStack Nat).stack.tail ∧
      (g1.dirty = true ↔ g1.stack ≠ []) ∧
      (g1.stack ≠ [] → ∀ cb : CommandBuffer Nat Nat, ∃ v g2, g1.top = some v ∧
        g1.dispatch cb = some (g2, cb ++ [Command.dispatch v]))) ∧
    (∃ i1 : InlineStateStack Nat, (⟨[4, 3], false⟩ : InlineStateStack Nat).pop = some i1 ∧
      i1.stack = (⟨[4, 3], false⟩ : InlineStateStack Nat).stack.tail ∧
      (i1.dirty = true ↔ i1.stack ≠ []) ∧
      (i1.stack ≠ [] → ∀ cb : CommandBuffer Nat Nat, ∃ v i2, i1.top = some v ∧
        i1.dispatch cb = some (i2, cb ++ [Command.dispatchInline v]))) ∧
    (∀ (a b : Nat) (cb : CommandBuffer Nat Nat),
      StateStack.run
          [StackOp.push a, StackOp.push b, StackOp.dispatch, StackOp.pop, StackOp.dispatch]
          (StateStack.new, cb) =
        some (⟨[a], false⟩, cb ++ [Command.dispatch b, Command.dispatch a]) ∧
      InlineStateStack.run
          [StackOp.push a, StackOp.push b, StackOp.dispatch, StackOp.pop, StackOp.dispatch]
          (InlineStateStack.new, cb) =
        some (⟨[a], false⟩, cb ++ [Command.dispatchInline b, Command.dispatchInline a]))) :=
  ⟨⟨by decide, by decide⟩,
    pop_sets_dirty_from_emptiness ⟨[2, 1], false⟩ ⟨[4, 3], false⟩ (by decide) (by decide)⟩

end PushPop

/-! ## `MatrixStack`: construction, `set` and `pop` -/

section MatrixStackCalls

variable {T mat4 dmat4 L : Type}

/-- C11 (a `MatrixStack` pop always forces re-dispatch): on a `MatrixStack`
with at least two frames, whatever its dirty flag, `pop` removes exactly the
top frame and sets dirty to true, and the next `dispatch`, on a buffer with a
current pipeline layout, records exactly one upload, whose payload is the
newly exposed frame; on such a buffer push(M1), push(M2), dispatch, pop,
dispatch records the upload of M2 and then the upload of M1. -/
theorem matrixStack_pop_forces_redispatch {T mat4 dmat4 L : Type}
    (layoutOf : Command T mat4 → Option L)
    (s : MatrixStack mat4) (h : 2 ≤ s.matrixStack.length) :
    (∃ s1 : MatrixStack mat4, s.pop = some s1 ∧ s1.matrixStack = s.matrixStack.tail ∧
      s1.dirty = true ∧
      ∀ cb : CommandBuffer T mat4, LayoutBound layoutOf cb → ∃ m s2, s1.top = some m ∧
        s.matrixStack.tail.head? = some m ∧ s2.matrixStack = s1.matrixStack ∧
        s1.dispatch layoutOf cb = some (s2,
          cb ++ [Command.vkCmdPushConstants s.stageFlags s.offset sizeof_mat4 m])) ∧
    (∀ (narrow : dmat4 → mat4) (M1 M2 : mat4) (cb : CommandBuffer T mat4),
      LayoutBound layoutOf cb →
      MatrixStack.run layoutOf narrow
          [MatrixOp.push M1, MatrixOp.push M2, MatrixOp.dispatch, MatrixOp.pop,
            MatrixOp.dispatch] (s, cb) =
        some ({ s with matrixStack := M1 :: s.matrixStack, dirty := false },
          cb ++ [Command.vkCmdPushConstants s.stageFlags s.offset sizeof_mat4 M2,
            Command.vkCmdPushConstants s.stageFlags s.offset sizeof_mat4 M1])) := by
  obtain ⟨stack, flags, offset, dirty⟩ := s
  constructor
  · cases stack with
    | nil => simp at h
    | cons a rest =>
      cases rest with
      | nil => simp at h
      | cons b rest2 =>
        refine ⟨⟨b :: rest2, flags, offset, true⟩, rfl, rfl, rfl, ?_⟩
        intro cb hb
        exact ⟨b, ⟨b :: rest2, flags, offset, false⟩, rfl, rfl, rfl,
          matrixStack_dispatch_of_dirty layoutOf _ cb b rfl rfl hb⟩
  · intro narrow M1 M2 cb hb
    have hb2 := layoutBound_append layoutOf cb
      [Command.vkCmdPushConstants flags offset sizeof_mat4 M2] hb
    have d1 := matrixStack_dispatch_of_dirty layoutOf
      (⟨M2 :: M1 :: stack, flags, offset, true⟩ : MatrixStack mat4) cb M2 rfl rfl hb
    have d2 := matrixStack_dispatch_of_dirty layoutOf
      (⟨M1 :: stack, flags, offset, true⟩ : MatrixStack mat4) _ M1 rfl rfl hb2
    simp only [MatrixStack.run, MatrixStack.step, MatrixStack.push, MatrixStack.pop, d1, d2]
    simp

/-- Witness of C11: a clean stack of two frames, and a buffer on which the
pipeline bind 1 has made a layout current. -/
theorem matrixStack_pop_forces_redispatch_witness :
    (2 ≤ (⟨[7, 0], 1, 64, false⟩ : MatrixStack Nat).matrixStack.length ∧
      LayoutBound exampleLayoutOf [Command.dispatch 1]) ∧
    (∃ m s2, (⟨[0], 1, 64, true⟩ : MatrixStack Nat).top = some m ∧
      (⟨[7, 0], 1, 64, false⟩ : MatrixStack Nat).matrixStack.tail.head? = some m ∧
      s2.matrixStack = (⟨[0], 1, 64, true⟩ : MatrixStack Nat).matrixStack ∧
      (⟨[0], 1, 64, true⟩ : MatrixStack Nat).dispatch exampleLayoutOf [Command.dispatch 1] =
        some (s2, [Command.dispatch 1] ++ [Command.vkCmdPushConstants
          (⟨[7, 0], 1, 64, false⟩ : MatrixStack Nat).stageFlags
          (⟨[7, 0], 1, 64, false⟩ : MatrixStack Nat).offset sizeof_mat4 m])) ∧
    MatrixStack.run exampleLayoutOf (fun d : Nat => d + 100)
        [MatrixOp.push 8, MatrixOp.push 9, MatrixOp.dispatch, MatrixOp.pop,
          MatrixOp.dispatch]
        ((⟨[7, 0], 1, 64, false⟩ : MatrixStack Nat), [Command.dispatch 1]) =
      some ({ (⟨[7, 0], 1, 64, false⟩ : MatrixStack Nat) with
          matrixStack := 8 :: (⟨[7, 0], 1, 64, false⟩ : MatrixStack Nat).matrixStack,
          dirty := false },
        [Command.dispatch 1] ++
          [Command.vkCmdPushConstants (⟨[7, 0], 1, 64, false⟩ : MatrixStack Nat).stageFlags
            (⟨[7, 0], 1, 64, false⟩ : MatrixStack Nat).offset sizeof_mat4 9,
          Command.vkCmdPushConstants (⟨[7, 0], 1, 64, false⟩ : MatrixStack Nat).stageFlags
            (⟨[7, 0], 1, 64, false⟩ : MatrixStack Nat).offset sizeof_mat4 8]) :=
  have hlen : 2 ≤ (⟨[7, 0], 1, 64, false⟩ : MatrixStack Nat).matrixStack.length := by decide
  have hb : LayoutBound exampleLayoutOf [Command.dispatch 1] := by decide
  have hthm := @matrixStack_pop_forces_redispatch Nat Nat Nat Nat exampleLayoutOf
    ⟨[7, 0], 1, 64, false⟩ hlen
  ⟨⟨hlen, hb⟩,
    by
      obtain ⟨s1, hpop, _, _, hdisp⟩ := hthm.1
      have hs1 : s1 = (⟨[0], 1, 64, true⟩ : MatrixStack Nat) := by
        have : (⟨[7, 0], 1, 64, false⟩ : MatrixStack Nat).pop = some ⟨[0], 1, 64, true⟩ := rfl
        rw [this] at hpop
        exact (Option.some.inj hpop).symm
      subst hs1
      exact hdisp [Command.dispatch 1] hb,
    hthm.2 (fun d : Nat => d + 100) 8 9 [Command.dispatch 1] hb⟩

/-- C12 (`set` replaces, it does not nest): for every `MatrixStack` and every
matrix `M`, `set(M)` leaves exactly one frame, `M` (for the `dmat4` overload
the `mat4` converted from `M`), with dirty true and `stageFlags` and `offset`
as before; after push(M1), push(M2), set(M3) the size is 1 and the top is
M3. -/
theorem matrixStack_set_replaces {mat4 dmat4 : Type} (s : MatrixStack mat4)
    (narrow : dmat4 → mat4) :
    (∀ M : mat4, (s.set M).matrixStack = [M] ∧ (s.set M).dirty = true ∧
      (s.set M).top = some M ∧ (s.set M).matrixStack.length = 1 ∧
      (s.set M).stageFlags = s.stageFlags ∧ (s.set M).offset = s.offset) ∧
    (∀ M : dmat4, (s.setDouble narrow M).matrixStack = [narrow M] ∧
      (s.setDouble narrow M).dirty = true ∧
      (s.setDouble narrow M).stageFlags = s.stageFlags ∧
      (s.setDouble narrow M).offset = s.offset) ∧
    (∀ M1 M2 M3 : mat4, (((s.push M1).push M2).set M3).matrixStack.length = 1 ∧
      (((s.push M1).push M2).set M3).top = some M3) :=
  ⟨fun _ => ⟨rfl, rfl, rfl, rfl, rfl, rfl⟩, fun _ => ⟨rfl, rfl, rfl, rfl⟩,
    fun _ _ _ => ⟨rfl, rfl⟩⟩

/-- C15 (construction of a `MatrixStack`): for every offset `o`, the newly
constructed stack has exactly one frame, the identity, with dirty true,
`offset = o` and the vertex stage flag; the offset is 0 when the argument is
omitted; its first `dispatch`, on a buffer with a current pipeline layout,
records one upload of the identity at offset `o`, and is undefined on a
buffer with none. -/
theorem matrixStack_new_state {T mat4 L : Type} (layoutOf : Command T mat4 → Option L)
    (identity : mat4) (o : Nat) :
    (MatrixStack.new identity o).matrixStack = [identity] ∧
    (MatrixStack.new identity o).dirty = true ∧
    (MatrixStack.new identity o).offset = o ∧
    (MatrixStack.new identity o).stageFlags = VK_SHADER_STAGE_VERTEX_BIT ∧
    MatrixStack.newDefault identity = MatrixStack.new identity 0 ∧
    (∀ cb : CommandBuffer T mat4, LayoutBound layoutOf cb →
      (MatrixStack.new identity o).dispatch layoutOf cb =
        some ({ MatrixStack.new identity o with dirty := false },
          cb ++ [Command.vkCmdPushConstants VK_SHADER_STAGE_VERTEX_BIT o 64 identity])) ∧
    (∀ cb : CommandBuffer T mat4, ¬ LayoutBound layoutOf cb →
      (MatrixStack.new identity o).dispatch layoutOf cb = none) :=
  ⟨rfl, rfl, rfl, rfl, rfl,
    fun cb hb => matrixStack_dispatch_of_dirty layoutOf _ cb identity rfl rfl hb,
    fun cb hb => matrixStack_dispatch_of_unbound layoutOf _ cb rfl hb⟩

/-- Witness of C15: the first dispatch of the stack constructed at offset 64,
on a buffer on which the pipeline bind 1 has made a layout current, and on the
empty buffer. -/
theorem matrixStack_new_state_witness :
    (LayoutBound exampleLayoutOf [Command.dispatch 1] ∧
      (MatrixStack.new (0 : Nat) 64).dispatch exampleLayoutOf [Command.dispatch 1] =
        some ({ MatrixStack.new (0 : Nat) 64 with dirty := false },
          [Command.dispatch 1] ++
            [Command.vkCmdPushConstants VK_SHADER_STAGE_VERTEX_BIT 64 64 0])) ∧
    (¬ LayoutBound exampleLayoutOf [] ∧
      (MatrixStack.new (0 : Nat) 64).dispatch exampleLayoutOf [] = none) :=
  ⟨⟨by decide,
      (matrixStack_new_state exampleLayoutOf (0 : Nat) 64).2.2.2.2.2.1
        [Command.dispatch 1] (by decide)⟩,
    ⟨by decide,
      (matrixStack_new_state exampleLayoutOf (0 : Nat) 64).2.2.2.2.2.2 [] (by decide)⟩⟩

/-- C20 (`set` discards outstanding pushes and `pop` marks an empty
`MatrixStack` dirty): for every `MatrixStack` and every matrix `M`, `set(M)`
followed by one `pop` gives a stack with no frame whose dirty flag is true, on
which `dispatch` is undefined (it reads the top of an empty stack); a generic
stack emptied by `pop` is clean and its `dispatch` is defined. -/
theorem matrixStack_set_then_pop_empty_dirty {T mat4 dmat4 L : Type}
    (layoutOf : Command T mat4 → Option L)
    (s : MatrixStack mat4) (narrow : dmat4 → mat4) :
    (∀ (M : mat4) (cb : CommandBuffer T mat4),
      (s.set M).pop = some { s with matrixStack := [], dirty := true } ∧
      ({ s with matrixStack := [], dirty := true } : MatrixStack mat4).dispatch layoutOf cb
        = none) ∧
    (∀ M : dmat4,
      (s.setDouble narrow M).pop = some { s with matrixStack := [], dirty := true }) ∧
    (∀ (v : T) (b : Bool) (cb : CommandBuffer T mat4),
      (⟨[v], b⟩ : StateStack T).pop = some ⟨[], false⟩ ∧
      (⟨[], false⟩ : StateStack T).dispatch cb = some (⟨[], false⟩, cb) ∧
      (⟨[v], b⟩ : InlineStateStack T).pop = some ⟨[], false⟩ ∧
      (⟨[], false⟩ : InlineStateStack T).dispatch cb = some (⟨[], false⟩, cb)) :=
  ⟨fun _ cb => ⟨rfl, by
      cases hc : getCurrentPipelineLayout layoutOf cb <;>
        simp [MatrixStack.dispatch, MatrixStack.top, hc]⟩,
    fun _ => rfl, fun _ _ _ => ⟨rfl, rfl, rfl, rfl⟩⟩

end MatrixStackCalls

/-! ## Uploads of a `MatrixStack` -/

section Uploads

variable {T mat4 dmat4 L : Type}

/-- What a `dispatch` of a `MatrixStack` records: nothing, or the upload of
its top matrix with its flags, offset and the size of a `mat4`. -/
theorem matrixStack_dispatch_records (layoutOf : Command T mat4 → Option L)
    (s s' : MatrixStack mat4)
    (cb cb' : CommandBuffer T mat4) (h : s.dispatch layoutOf cb = some (s', cb')) :
    cb' = cb ∨ ∃ m, s.top = some m ∧
      cb' = cb ++ [Command.vkCmdPushConstants s.stageFlags s.offset sizeof_mat4 m] := by
  rcases matrixStack_dispatch_cases layoutOf s s' cb cb' h with
    ⟨_, _, hcb⟩ | ⟨_, m, hm, _, hcb⟩
  · exact Or.inl hcb
  · exact Or.inr ⟨m, hm, hcb⟩

/-- What one call on a `MatrixStack` records. -/
theorem matrixStack_step_records (layoutOf : Command T mat4 → Option L)
    (narrow : dmat4 → mat4)
    (st st' : MatrixStack mat4 × CommandBuffer T mat4) (op : MatrixOp mat4 dmat4)
    (h : MatrixStack.step layoutOf narrow st op = some st') :
    st'.2 = st.2 ∨ ∃ m, st.1.top = some m ∧
      st'.2 = st.2 ++ [Command.vkCmdPushConstants st.1.stageFlags st.1.offset sizeof_mat4 m] := by
  cases op with
  | set matrix =>
    simp only [MatrixStack.step, Option.some.injEq] at h
    subst h
    exact Or.inl rfl
  | setDouble matrix =>
    simp only [MatrixStack.step, Option.some.injEq] at h
    subst h
    exact Or.inl rfl
  | push matrix =>
    simp only [MatrixStack.step, Option.some.injEq] at h
    subst h
    exact Or.inl rfl
  | pop =>
    simp only [MatrixStack.step] at h
    split at h
    · exact absurd h (by simp)
    · simp only [Option.some.injEq] at h
      subst h
      exact Or.inl rfl
  | dispatch =>
    obtain ⟨s', cb'⟩ := st'
    exact matrixStack_dispatch_records layoutOf st.1 s' st.2 cb' h

/-- The calls recorded during a sequence of calls on a `MatrixStack` follow
those already on the buffer, and each is an upload with the stack's flags and
offset and the size of a `mat4`. -/
theorem matrixStack_run_records (layoutOf : Command T mat4 → Option L)
    (narrow : dmat4 → mat4) :
    ∀ (ops : List (MatrixOp mat4 dmat4)) (st st' : MatrixStack mat4 × CommandBuffer T mat4),
      MatrixStack.run layoutOf narrow ops st = some st' →
      ∃ uploads : CommandBuffer T mat4, st'.2 = st.2 ++ uploads ∧
        ∀ c ∈ uploads, ∃ m,
          c = Command.vkCmdPushConstants st.1.stageFlags st.1.offset sizeof_mat4 m
  | [], st, st', h => by
    simp only [MatrixStack.run, Option.some.injEq] at h
    subst h
    exact ⟨[], by simp, by simp⟩
  | op :: ops, st, st', h => by
    simp only [MatrixStack.run] at h
    split at h
    · exact absurd h (by simp)
    · rename_i st1 h1
      have hf := matrixStack_step_fields layoutOf narrow st st1 op h1
      have hrec := matrixStack_step_records layoutOf narrow st st1 op h1
      obtain ⟨ups, hups, hall⟩ := matrixStack_run_records layoutOf narrow ops st1 st' h
      rw [hf.1, hf.2] at hall
      rcases hrec with hrec | ⟨m, _, hrec⟩
      · exact ⟨ups, by rw [hups, hrec], hall⟩
      · refine ⟨Command.vkCmdPushConstants st.1.stageFlags st.1.offset sizeof_mat4 m :: ups,
          by rw [hups, hrec]; simp, ?_⟩
        intro c hc
        rcases List.mem_cons.mp hc with hc | hc
        · exact ⟨m, hc⟩
        · exact hall c hc

/-- C13 (upload ranges never collide): every call recorded by a `MatrixStack`
constructed with offset `o`, after any defined sequence of set / push / pop /
dispatch on any buffer `cb0`, is an upload at offset `o` of 64 bytes with the
vertex stage flag, and a `dispatch` that records one records the current top
matrix; the ranges written by the projection, view and model stacks of a
`State` (offsets 0, 64, 128) are pairwise disjoint. -/
theorem matrixStack_uploads_never_collide {T mat4 dmat4 L : Type}
    (layoutOf : Command T mat4 → Option L) (identity : mat4)
    (o : Nat) (narrow : dmat4 → mat4) :
    (∀ (cb0 : CommandBuffer T mat4) (ops : List (MatrixOp mat4 dmat4))
      (s : MatrixStack mat4) (cb : CommandBuffer T mat4),
      MatrixStack.run layoutOf narrow ops (MatrixStack.new identity o, cb0) = some (s, cb) →
        (∃ uploads : CommandBuffer T mat4, cb = cb0 ++ uploads ∧
          ∀ c ∈ uploads, ∃ m,
            c = Command.vkCmdPushConstants VK_SHADER_STAGE_VERTEX_BIT o 64 m) ∧
        (∀ (s' : MatrixStack mat4) (cb' : CommandBuffer T mat4),
          s.dispatch layoutOf cb = some (s', cb') →
            cb' = cb ∨ ∃ m, s.top = some m ∧
              cb' = cb ++ [Command.vkCmdPushConstants VK_SHADER_STAGE_VERTEX_BIT o 64 m])) ∧
    ((State.new identity : State T mat4).projectionMatrixStack.offset = 0 ∧
      (State.new identity : State T mat4).viewMatrixStack.offset = 64 ∧
      (State.new identity : State T mat4).modelMatrixStack.offset = 128) ∧
    (Disjoint
        (uploadRange (State.new identity : State T mat4).projectionMatrixStack.offset
          sizeof_mat4)
        (uploadRange (State.new identity : State T mat4).viewMatrixStack.offset sizeof_mat4) ∧
      Disjoint
        (uploadRange (State.new identity : State T mat4).viewMatrixStack.offset sizeof_mat4)
        (uploadRange (State.new identity : State T mat4).modelMatrixStack.offset sizeof_mat4) ∧
      Disjoint
        (uploadRange (State.new identity : State T mat4).projectionMatrixStack.offset
          sizeof_mat4)
        (uploadRange (State.new identity : State T mat4).modelMatrixStack.offset
          sizeof_mat4)) := by
  refine ⟨?_, ⟨rfl, rfl, rfl⟩, ?_⟩
  · intro cb0 ops s cb h
    have hf := matrixStack_run_fields layoutOf narrow ops _ (s, cb) h
    simp only [MatrixStack.new] at hf
    constructor
    · exact matrixStack_run_records layoutOf narrow ops _ (s, cb) h
    · intro s' cb' hd
      have := matrixStack_dispatch_records layoutOf s s' cb cb' hd
      rw [hf.1, hf.2] at this
      exact this
  · simp only [State.new, MatrixStack.new, uploadRange, sizeof_mat4]
    refine ⟨?_, ?_, ?_⟩ <;>
      · rw [Finset.disjoint_left]
        intro a h1 h2
        simp only [Finset.mem_Ico] at h1 h2
        omega

/-- Witness of C13: dispatch, push 5, dispatch, set 6 on the stack
constructed with offset 64, on a buffer on which the pipeline bind 1 has made
a layout current. -/
theorem matrixStack_uploads_never_collide_witness :
    MatrixStack.run exampleLayoutOf (fun d : Nat => d + 100)
        [MatrixOp.dispatch, MatrixOp.push 5, MatrixOp.dispatch, MatrixOp.set 6]
        (MatrixStack.new (0 : Nat) 64, ([Command.dispatch 1] : CommandBuffer Nat Nat)) =
      some (⟨[6], 1, 64, true⟩,
        [Command.dispatch 1, Command.vkCmdPushConstants 1 64 64 0,
          Command.vkCmdPushConstants 1 64 64 5]) ∧
    (⟨[6], 1, 64, true⟩ : MatrixStack Nat).dispatch exampleLayoutOf
        ([Command.dispatch 1, Command.vkCmdPushConstants 1 64 64 0,
          Command.vkCmdPushConstants 1 64 64 5] : CommandBuffer Nat Nat) =
      some (⟨[6], 1, 64, false⟩,
        [Command.dispatch 1, Command.vkCmdPushConstants 1 64 64 0,
          Command.vkCmdPushConstants 1 64 64 5, Command.vkCmdPushConstants 1 64 64 6]) ∧
    ((∃ uploads : CommandBuffer Nat Nat,
        ([Command.dispatch 1, Command.vkCmdPushConstants 1 64 64 0,
          Command.vkCmdPushConstants 1 64 64 5] : CommandBuffer Nat Nat) =
          [Command.dispatch 1] ++ uploads ∧
        ∀ c ∈ uploads, ∃ m,
          c = Command.vkCmdPushConstants VK_SHADER_STAGE_VERTEX_BIT 64 64 m) ∧
      (∀ (s' : MatrixStack Nat) (cb' : CommandBuffer Nat Nat),
        (⟨[6], 1, 64, true⟩ : MatrixStack Nat).dispatch exampleLayoutOf
            [Command.dispatch 1, Command.vkCmdPushConstants 1 64 64 0,
              Command.vkCmdPushConstants 1 64 64 5] =
          some (s', cb') →
          cb' = [Command.dispatch 1, Command.vkCmdPushConstants 1 64 64 0,
            Command.vkCmdPushConstants 1 64 64 5] ∨
          ∃ m, (⟨[6], 1, 64, true⟩ : MatrixStack Nat).top = some m ∧
            cb' = [Command.dispatch 1, Command.vkCmdPushConstants 1 64 64 0,
                Command.vkCmdPushConstants 1 64 64 5]
              ++ [Command.vkCmdPushConstants VK_SHADER_STAGE_VERTEX_BIT 64 64 m])) :=
  ⟨by decide, by decide,
    (@matrixStack_uploads_never_collide Nat Nat Nat Nat exampleLayoutOf 0 64
        (fun d : Nat => d + 100)).1
      [Command.dispatch 1]
      [MatrixOp.dispatch, MatrixOp.push 5, MatrixOp.dispatch, MatrixOp.set 6]
      ⟨[6], 1, 64, true⟩
      [Command.dispatch 1, Command.vkCmdPushConstants 1 64 64 0,
        Command.vkCmdPushConstants 1 64 64 5]
      (by decide)⟩

end Uploads

/-! ## Independence of the three matrix stacks -/

section Independence

variable {T mat4 dmat4 L : Type}

/-- The constituents of a `State` none of which is dirty. -/
theorem state_clean_parts (s : State T mat4) (h : s.anyConstituentDirty = false) :
    s.computePipelineStack.dirty = false ∧ s.graphicsPipelineStack.dirty = false ∧
    (∀ d ∈ s.descriptorStacks, d.dirty = false) ∧
    s.projectionMatrixStack.dirty = false ∧ s.viewMatrixStack.dirty = false ∧
    s.modelMatrixStack.dirty = false ∧
    (∀ e ∈ s.pushConstantsMap.entries, e.2.dirty = false) := by
  simp only [State.anyConstituentDirty, Bool.or_eq_false_iff, List.any_eq_false] at h
  obtain ⟨⟨⟨⟨⟨⟨h1, h2⟩, h3⟩, h4⟩, h5⟩, h6⟩, h7⟩ := h
  exact ⟨h1, h2, fun d hd => by simpa using h3 d hd, h4, h5, h6,
    fun e he => by simpa using h7 e he⟩

/-- A clean `StateStack` contributes nothing. -/
theorem stateStack_contribution_of_clean (s : StateStack T) (h : s.dirty = false) :
    (s.contribution : CommandBuffer T mat4) = [] := by
  simp [StateStack.contribution, h]

/-- A clean `InlineStateStack` contributes nothing. -/
theorem inlineStack_contribution_of_clean (s : InlineStateStack T) (h : s.dirty = false) :
    (s.contribution : CommandBuffer T mat4) = [] := by
  simp [InlineStateStack.contribution, h]

/-- A clean `MatrixStack` contributes nothing. -/
theorem matrixStack_contribution_of_clean (s : MatrixStack mat4) (h : s.dirty = false) :
    (s.contribution : CommandBuffer T mat4) = [] := by
  simp [MatrixStack.contribution, h]

/-- A dirty `MatrixStack` with top `m` contributes the upload of `m`. -/
theorem matrixStack_contribution_of_dirty (s : MatrixStack mat4) (m : mat4)
    (h : s.dirty = true) (hm : s.top = some m) :
    (s.contribution : CommandBuffer T mat4) =
      [Command.vkCmdPushConstants s.stageFlags s.offset sizeof_mat4 m] := by
  simp [MatrixStack.contribution, h, hm]

/-- Clean descriptor stacks contribute nothing. -/
theorem descriptorStacks_contribution_of_clean :
    ∀ (ds : List (InlineStateStack T)), (∀ d ∈ ds, d.dirty = false) →
      ds.flatMap (fun d => (d.contribution : CommandBuffer T mat4)) = []
  | [], _ => rfl
  | d :: rest, h => by
    simp only [List.flatMap_cons,
      inlineStack_contribution_of_clean d (h d (List.mem_cons_self _ _)),
      descriptorStacks_contribution_of_clean rest
        (fun x hx => h x (List.mem_cons_of_mem _ hx)), List.append_nil]

/-- Clean push-constant stacks contribute nothing. -/
theorem pushConstantsEntries_contribution_of_clean :
    ∀ (es : List (Nat × StateStack T)), (∀ e ∈ es, e.2.dirty = false) →
      es.flatMap (fun e => (e.2.contribution : CommandBuffer T mat4)) = []
  | [], _ => rfl
  | e :: rest, h => by
    simp only [List.flatMap_cons,
      stateStack_contribution_of_clean e.2 (h e (List.mem_cons_self _ _)),
      pushConstantsEntries_contribution_of_clean rest
        (fun x hx => h x (List.mem_cons_of_mem _ hx)), List.append_nil]

/-- A change of a `MatrixStack` by `set`, `push`, or a `pop` that leaves a
frame gives a dirty stack with a top frame and the same flags and offset. -/
theorem matrixStack_change_result (narrow : dmat4 → mat4) (ms ms' : MatrixStack mat4)
    (h : (∃ M, ms' = ms.set M) ∨ (∃ M, ms' = ms.setDouble narrow M) ∨
      (∃ M, ms' = ms.push M) ∨ (ms.pop = some ms' ∧ ms'.matrixStack ≠ [])) :
    ms'.dirty = true ∧ (∃ m, ms'.top = some m) ∧ ms'.stageFlags = ms.stageFlags ∧
      ms'.offset = ms.offset := by
  rcases h with ⟨M, rfl⟩ | ⟨M, rfl⟩ | ⟨M, rfl⟩ | ⟨hpop, hne⟩
  · exact ⟨rfl, ⟨M, rfl⟩, rfl, rfl⟩
  · exact ⟨rfl, ⟨narrow M, rfl⟩, rfl, rfl⟩
  · exact ⟨rfl, ⟨M, rfl⟩, rfl, rfl⟩
  · obtain ⟨stack, flags, offset, dirty⟩ := ms
    cases stack with
    | nil => simp [MatrixStack.pop] at hpop
    | cons a rest =>
      simp only [MatrixStack.pop, Option.some.injEq] at hpop
      subst hpop
      exact ⟨rfl, exists_head_of_ne_nil rest hne, rfl, rfl⟩

/-- C14 (independence of the three matrix stacks): in a `State` whose
constituent stacks are all clean, after the caller changes exactly one of the
projection, view and model stacks (by `set`, by `push`, or by a `pop` that
leaves it non-empty) and sets the top-level flag, `State::dispatch`, on a
buffer with a current pipeline layout, records exactly one call: the upload of
the changed stack's top matrix with that stack's flags at that stack's
offset. -/
theorem matrix_stacks_independent {T mat4 dmat4 L : Type}
    (layoutOf : Command T mat4 → Option L) (s : State T mat4)
    (slot : MatrixSlot) (narrow : dmat4 → mat4) (ms' : MatrixStack mat4)
    (cb : CommandBuffer T mat4)
    (hclean : s.anyConstituentDirty = false)
    (hb : LayoutBound layoutOf cb)
    (hchange : (∃ M, ms' = (s.matrixStackAt slot).set M) ∨
      (∃ M, ms' = (s.matrixStackAt slot).setDouble narrow M) ∨
      (∃ M, ms' = (s.matrixStackAt slot).push M) ∨
      ((s.matrixStackAt slot).pop = some ms' ∧ ms'.matrixStack ≠ [])) :
    ∃ (m : mat4) (s' : State T mat4), ms'.top = some m ∧
      (s.changeMatrixStack slot ms').dispatch layoutOf cb =
        some (s', cb ++ [Command.vkCmdPushConstants (s.matrixStackAt slot).stageFlags
          (s.matrixStackAt slot).offset sizeof_mat4 m]) := by
  obtain ⟨hdirty, ⟨m, hm⟩, hflags, hoffset⟩ :=
    matrixStack_change_result narrow (s.matrixStackAt slot) ms' hchange
  obtain ⟨c1, c2, c3, c4, c5, c6, c7⟩ := state_clean_parts s hclean
  have hne : ms'.Dispatchable := by
    intro _ hnil
    simp [MatrixStack.top, hnil] at hm
  have hcontrib := @matrixStack_contribution_of_dirty T mat4 ms' m hdirty hm
  rw [hflags, hoffset] at hcontrib
  have hD : (s.changeMatrixStack slot ms').Dispatchable := by
    cases slot <;>
      exact ⟨fun h => by simp_all [State.changeMatrixStack],
        fun h => by simp_all [State.changeMatrixStack],
        fun d hd h => by
          have := c3 d (by simpa [State.changeMatrixStack] using hd)
          simp_all,
        by first
          | exact hne
          | exact fun h => by simp_all [State.changeMatrixStack],
        by first
          | exact hne
          | exact fun h => by simp_all [State.changeMatrixStack],
        by first
          | exact hne
          | exact fun h => by simp_all [State.changeMatrixStack],
        fun e he h => by
          have := c7 e (by simpa [State.changeMatrixStack] using he)
          simp_all⟩
  obtain ⟨s', hs', _⟩ := state_dispatch_eq layoutOf (s.changeMatrixStack slot ms') cb
    (by cases slot <;> rfl) hD (state_layoutReady_of_bound layoutOf _ cb hb)
  refine ⟨m, s', hm, ?_⟩
  rw [hs']
  congr 2
  cases slot <;>
    simp only [State.contribution, State.changeMatrixStack, State.matrixStackAt] at hcontrib ⊢ <;>
    simp only [stateStack_contribution_of_clean _ c1, stateStack_contribution_of_clean _ c2,
      descriptorStacks_contribution_of_clean _ c3,
      pushConstantsEntries_contribution_of_clean _ c7,
      matrixStack_contribution_of_clean _ c4, matrixStack_contribution_of_clean _ c5,
      matrixStack_contribution_of_clean _ c6, hcontrib, List.append_nil, List.nil_append]

/-- Witness of C14: a push of 9 on the view stack of `exampleCleanState`, on
a buffer on which the pipeline bind 21 has made a layout current. -/
theorem matrix_stacks_independent_witness :
    (exampleCleanState.anyConstituentDirty = false ∧
      LayoutBound exampleLayoutOf [Command.dispatch 21] ∧
      ((∃ M, (exampleCleanState.matrixStackAt MatrixSlot.view).push 9 =
          (exampleCleanState.matrixStackAt MatrixSlot.view).set M) ∨
        (∃ M, (exampleCleanState.matrixStackAt MatrixSlot.view).push 9 =
          (exampleCleanState.matrixStackAt MatrixSlot.view).setDouble
            (fun d : Nat => d + 100) M) ∨
        (∃ M, (exampleCleanState.matrixStackAt MatrixSlot.view).push 9 =
          (exampleCleanState.matrixStackAt MatrixSlot.view).push M) ∨
        ((exampleCleanState.matrixStackAt MatrixSlot.view).pop =
            some ((exampleCleanState.matrixStackAt MatrixSlot.view).push 9) ∧
          ((exampleCleanState.matrixStackAt MatrixSlot.view).push 9).matrixStack ≠ []))) ∧
    ∃ (m : Nat) (s' : State Nat Nat),
      ((exampleCleanState.matrixStackAt MatrixSlot.view).push 9).top = some m ∧
      (exampleCleanState.changeMatrixStack MatrixSlot.view
          ((exampleCleanState.matrixStackAt MatrixSlot.view).push 9)).dispatch
          exampleLayoutOf [Command.dispatch 21] =
        some (s', [Command.dispatch 21] ++ [Command.vkCmdPushConstants
          (exampleCleanState.matrixStackAt MatrixSlot.view).stageFlags
          (exampleCleanState.matrixStackAt MatrixSlot.view).offset sizeof_mat4 m]) :=
  ⟨⟨by decide, by decide, Or.inr (Or.inr (Or.inl ⟨9, rfl⟩))⟩,
    matrix_stacks_independent exampleLayoutOf exampleCleanState MatrixSlot.view
      (fun d : Nat => d + 100)
      ((exampleCleanState.matrixStackAt MatrixSlot.view).push 9) [Command.dispatch 21]
      (by decide) (by decide) (Or.inr (Or.inr (Or.inl ⟨9, rfl⟩)))⟩

/-- The pass of the witness of C14 records the upload of 9 at offset 64 and
nothing else. -/
theorem exampleCleanState_view_push :
    ∃ s' : State Nat Nat,
      (exampleCleanState.changeMatrixStack MatrixSlot.view
          ((exampleCleanState.matrixStackAt MatrixSlot.view).push 9)).dispatch
          exampleLayoutOf [Command.dispatch 21] =
        some (s', [Command.dispatch 21, Command.vkCmdPushConstants 1 64 64 9]) := by
  obtain ⟨s', h, _⟩ := state_dispatch_eq exampleLayoutOf
    (exampleCleanState.changeMatrixStack MatrixSlot.view
      ((exampleCleanState.matrixStackAt MatrixSlot.view).push 9)) [Command.dispatch 21]
    (by decide) (by decide) (by decide)
  exact ⟨s', h⟩

end Independence

/-! ## `InlineStateStack` against `StateStack` -/

section InlineAgainstState

variable {T mat4 : Type}

/-- One call keeps a `StateStack` and an `InlineStateStack` in step: equal
frames and flag, and buffers recording the same frames in the two forms. -/
theorem stacks_step_in_step (stack : List T) (dirty : Bool) (frames : List T)
    (op : StackOp T) :
    (StateStack.step (⟨stack, dirty⟩, (frames.map Command.dispatch : CommandBuffer T mat4))
        op = none ∧
      InlineStateStack.step
        (⟨stack, dirty⟩, (frames.map Command.dispatchInline : CommandBuffer T mat4)) op
          = none) ∨
    ∃ (stack' : List T) (dirty' : Bool) (frames' : List T),
      StateStack.step (⟨stack, dirty⟩, (frames.map Command.dispatch : CommandBuffer T mat4))
          op = some (⟨stack', dirty'⟩, frames'.map Command.dispatch) ∧
      InlineStateStack.step
          (⟨stack, dirty⟩, (frames.map Command.dispatchInline : CommandBuffer T mat4)) op =
        some (⟨stack', dirty'⟩, frames'.map Command.dispatchInline) := by
  cases op with
  | push value => exact Or.inr ⟨value :: stack, true, frames, rfl, rfl⟩
  | pop =>
    cases stack with
    | nil => exact Or.inl ⟨rfl, rfl⟩
    | cons a rest => exact Or.inr ⟨rest, !rest.isEmpty, frames, rfl, rfl⟩
  | dispatch =>
    cases dirty with
    | false => exact Or.inr ⟨stack, false, frames, rfl, rfl⟩
    | true =>
      cases stack with
      | nil => exact Or.inl ⟨rfl, rfl⟩
      | cons a rest =>
        refine Or.inr ⟨a :: rest, false, frames ++ [a], ?_, ?_⟩
        · simp [StateStack.step, StateStack.dispatch, StateStack.top]
        · simp [InlineStateStack.step, InlineStateStack.dispatch, InlineStateStack.top]

/-- A sequence of calls keeps a `StateStack` and an `InlineStateStack` in
step. -/
theorem stacks_run_in_step :
    ∀ (ops : List (StackOp T)) (stack : List T) (dirty : Bool) (frames : List T),
      (StateStack.run ops
          (⟨stack, dirty⟩, (frames.map Command.dispatch : CommandBuffer T mat4)) = none ∧
        InlineStateStack.run ops
          (⟨stack, dirty⟩, (frames.map Command.dispatchInline : CommandBuffer T mat4))
            = none) ∨
      ∃ (stack' : List T) (dirty' : Bool) (frames' : List T),
        StateStack.run ops
            (⟨stack, dirty⟩, (frames.map Command.dispatch : CommandBuffer T mat4)) =
          some (⟨stack', dirty'⟩, frames'.map Command.dispatch) ∧
        InlineStateStack.run ops
            (⟨stack, dirty⟩, (frames.map Command.dispatchInline : CommandBuffer T mat4)) =
          some (⟨stack', dirty'⟩, frames'.map Command.dispatchInline)
  | [], stack, dirty, frames => Or.inr ⟨stack, dirty, frames, rfl, rfl⟩
  | op :: ops, stack, dirty, frames => by
    rcases @stacks_step_in_step T mat4 stack dirty frames op with ⟨h1, h2⟩ | ⟨st, d, fr, h1, h2⟩
    · left
      simp only [StateStack.run, InlineStateStack.run, h1, h2, and_self]
    · simp only [StateStack.run, InlineStateStack.run, h1, h2]
      exact stacks_run_in_step ops st d fr

/-- C16 (`InlineStateStack` is `StateStack` up to the emission encoding): for
every sequence of push / pop / dispatch calls applied to a newly constructed
`StateStack` and to a newly constructed `InlineStateStack`, after every step
either the call sequence is undefined on both (a `pop` met an empty stack), or
the two stacks have the same frames and the same dirty flag and the two
buffers record the same frames position by position, one in the `dispatch`
form and the other in the `dispatchInline` form. -/
theorem inline_stack_matches_state_stack {T mat4 : Type} (ops : List (StackOp T))
    (n : Nat) :
    (StateStack.run (ops.take n) (StateStack.new, ([] : CommandBuffer T mat4)) = none ∧
      InlineStateStack.run (ops.take n) (InlineStateStack.new, ([] : CommandBuffer T mat4))
        = none) ∨
    ∃ (stack : List T) (dirty : Bool) (frames : List T),
      StateStack.run (ops.take n) (StateStack.new, ([] : CommandBuffer T mat4)) =
        some (⟨stack, dirty⟩, frames.map Command.dispatch) ∧
      InlineStateStack.run (ops.take n) (InlineStateStack.new, ([] : CommandBuffer T mat4)) =
        some (⟨stack, dirty⟩, frames.map Command.dispatchInline) :=
  @stacks_run_in_step T mat4 (ops.take n) [] false []

/-- A run of C16 on both stacks: the two buffers record 2, 1 and 3 in the two
forms, and the stacks end equal. -/
theorem inline_stack_matches_state_stack_example :
    StateStack.run
        [StackOp.push 1, StackOp.push 2, StackOp.dispatch, StackOp.pop, StackOp.dispatch,
          StackOp.push 3, StackOp.dispatch, StackOp.dispatch]
        (StateStack.new, ([] : CommandBuffer Nat Nat)) =
      some (⟨[3, 1], false⟩, [2, 1, 3].map Command.dispatch) ∧
    InlineStateStack.run
        [StackOp.push 1, StackOp.push 2, StackOp.dispatch, StackOp.pop, StackOp.dispatch,
          StackOp.push 3, StackOp.dispatch, StackOp.dispatch]
        (InlineStateStack.new, ([] : CommandBuffer Nat Nat)) =
      some (⟨[3, 1], false⟩, [2, 1, 3].map Command.dispatchInline) := by
  decide

end InlineAgainstState

/-! ## What `dispatch` leaves unchanged -/

section DispatchFrame

variable {T mat4 L : Type}

/-- C17 (dispatch touches only the recorded calls and the dirty flags): a
`dispatch` that returns leaves the frames of a `StateStack`, of an
`InlineStateStack` and of a `MatrixStack` unchanged, and the `offset` and
`stageFlags` of a `MatrixStack`; `State::dispatch` leaves unchanged the frames
of every constituent stack, the number of descriptor slots, the offsets and
flags of the matrix stacks and the keys of the push-constant map. -/
theorem dispatch_keeps_frames {T mat4 L : Type} (layoutOf : Command T mat4 → Option L) :
    (∀ (s s' : StateStack T) (cb cb' : CommandBuffer T mat4),
      s.dispatch cb = some (s', cb') → s'.stack = s.stack) ∧
    (∀ (s s' : InlineStateStack T) (cb cb' : CommandBuffer T mat4),
      s.dispatch cb = some (s', cb') → s'.stack = s.stack) ∧
    (∀ (s s' : MatrixStack mat4) (cb cb' : CommandBuffer T mat4),
      s.dispatch layoutOf cb = some (s', cb') →
        s'.matrixStack = s.matrixStack ∧ s'.offset = s.offset ∧
          s'.stageFlags = s.stageFlags) ∧
    (∀ (s s' : State T mat4) (cb cb' : CommandBuffer T mat4),
      s.dispatch layoutOf cb = some (s', cb') →
        s'.computePipelineStack.stack = s.computePipelineStack.stack ∧
        s'.graphicsPipelineStack.stack = s.graphicsPipelineStack.stack ∧
        s'.descriptorStacks.length = s.descriptorStacks.length ∧
        s'.descriptorStacks.map (fun d => d.stack) =
          s.descriptorStacks.map (fun d => d.stack) ∧
        (s'.projectionMatrixStack.matrixStack = s.projectionMatrixStack.matrixStack ∧
          s'.projectionMatrixStack.offset = s.projectionMatrixStack.offset ∧
          s'.projectionMatrixStack.stageFlags = s.projectionMatrixStack.stageFlags) ∧
        (s'.viewMatrixStack.matrixStack = s.viewMatrixStack.matrixStack ∧
          s'.viewMatrixStack.offset = s.viewMatrixStack.offset ∧
          s'.viewMatrixStack.stageFlags = s.viewMatrixStack.stageFlags) ∧
        (s'.modelMatrixStack.matrixStack = s.modelMatrixStack.matrixStack ∧
          s'.modelMatrixStack.offset = s.modelMatrixStack.offset ∧
          s'.modelMatrixStack.stageFlags = s.modelMatrixStack.stageFlags) ∧
        s'.pushConstantsMap.keys = s.pushConstantsMap.keys ∧
        s'.pushConstantsMap.entries.map (fun e => (e.1, e.2.stack)) =
          s.pushConstantsMap.entries.map (fun e => (e.1, e.2.stack))) := by
  refine ⟨?_, ?_, ?_, ?_⟩
  · intro s s' cb cb' h
    rw [stateStack_dispatch_eq s cb (stateStack_dispatchable_of_dispatch s cb _ h)] at h
    simp only [Option.some.injEq, Prod.mk.injEq] at h
    rw [← h.1]
    rfl
  · intro s s' cb cb' h
    rw [inlineStack_dispatch_eq s cb (inlineStack_dispatchable_of_dispatch s cb _ h)] at h
    simp only [Option.some.injEq, Prod.mk.injEq] at h
    rw [← h.1]
    rfl
  · intro s s' cb cb' h
    rcases matrixStack_dispatch_cases layoutOf s s' cb cb' h with
      ⟨_, rfl, _⟩ | ⟨_, m, _, rfl, _⟩
    · exact ⟨rfl, rfl, rfl⟩
    · exact ⟨rfl, rfl, rfl⟩
  · intro s s' cb cb' h
    cases hd : s.dirty with
    | false =>
      rw [state_dispatch_of_clean layoutOf s cb hd] at h
      simp only [Option.some.injEq, Prod.mk.injEq] at h
      rw [← h.1]
      exact ⟨rfl, rfl, rfl, rfl, ⟨rfl, rfl, rfl⟩, ⟨rfl, rfl, rfl⟩, ⟨rfl, rfl, rfl⟩, rfl, rfl⟩
    | true =>
      obtain ⟨s2, h2, _, e1, e2, e3, e4, e5, e6, e7⟩ :=
        state_dispatch_eq layoutOf s cb hd (state_dispatchable_of_dispatch layoutOf s cb _ hd h)
          (state_layoutReady_of_dispatch layoutOf s cb _ hd h)
      rw [h] at h2
      simp only [Option.some.injEq, Prod.mk.injEq] at h2
      obtain ⟨rfl, _⟩ := h2
      refine ⟨by rw [e1]; rfl, by rw [e2]; rfl, by rw [e3]; simp, ?_,
        by rw [e4]; exact ⟨rfl, rfl, rfl⟩, by rw [e5]; exact ⟨rfl, rfl, rfl⟩,
        by rw [e6]; exact ⟨rfl, rfl, rfl⟩, ?_, ?_⟩
      · rw [e3, List.map_map]
        rfl
      · simp [PushConstantsMap.keys, e7, Function.comp_def]
      · rw [e7, List.map_map]
        rfl

/-- Witness of C17: dirty stacks of each kind and the pass on `exampleState`;
the `MatrixStack` dispatches on a buffer on which the pipeline bind 1 has made
a layout current. -/
theorem dispatch_keeps_frames_witness :
    ((⟨[2, 1], true⟩ : StateStack Nat).dispatch ([] : CommandBuffer Nat Nat) =
        some (⟨[2, 1], false⟩, [Command.dispatch 2]) ∧
      (⟨[2, 1], false⟩ : StateStack Nat).stack = (⟨[2, 1], true⟩ : StateStack Nat).stack) ∧
    ((⟨[4, 3], true⟩ : InlineStateStack Nat).dispatch ([] : CommandBuffer Nat Nat) =
        some (⟨[4, 3], false⟩, [Command.dispatchInline 4]) ∧
      (⟨[4, 3], false⟩ : InlineStateStack Nat).stack =
        (⟨[4, 3], true⟩ : InlineStateStack Nat).stack) ∧
    ((⟨[6, 5], 1, 64, true⟩ : MatrixStack Nat).dispatch exampleLayoutOf
          ([Command.dispatch 1] : CommandBuffer Nat Nat) =
        some (⟨[6, 5], 1, 64, false⟩,
          [Command.dispatch 1, Command.vkCmdPushConstants 1 64 64 6]) ∧
      ((⟨[6, 5], 1, 64, false⟩ : MatrixStack Nat).matrixStack =
          (⟨[6, 5], 1, 64, true⟩ : MatrixStack Nat).matrixStack ∧
        (⟨[6, 5], 1, 64, false⟩ : MatrixStack Nat).offset =
          (⟨[6, 5], 1, 64, true⟩ : MatrixStack Nat).offset ∧
        (⟨[6, 5], 1, 64, false⟩ : MatrixStack Nat).stageFlags =
          (⟨[6, 5], 1, 64, true⟩ : MatrixStack Nat).stageFlags)) ∧
    (∃ (s' : State Nat Nat) (cb' : CommandBuffer Nat Nat),
      exampleState.dispatch exampleLayoutOf [] = some (s', cb') ∧
      s'.graphicsPipelineStack.stack = exampleState.graphicsPipelineStack.stack ∧
      s'.descriptorStacks.length = exampleState.descriptorStacks.length ∧
      s'.pushConstantsMap.keys = exampleState.pushConstantsMap.keys) :=
  ⟨⟨by decide, (dispatch_keeps_frames exampleLayoutOf).1 ⟨[2, 1], true⟩ ⟨[2, 1], false⟩ []
      [Command.dispatch 2] (by decide)⟩,
    ⟨by decide, (dispatch_keeps_frames exampleLayoutOf).2.1 ⟨[4, 3], true⟩ ⟨[4, 3], false⟩ []
      [Command.dispatchInline 4] (by decide)⟩,
    ⟨by decide, (dispatch_keeps_frames exampleLayoutOf).2.2.1 ⟨[6, 5], 1, 64, true⟩
      ⟨[6, 5], 1, 64, false⟩ [Command.dispatch 1]
      [Command.dispatch 1, Command.vkCmdPushConstants 1 64 64 6] (by decide)⟩,
    by
      obtain ⟨s', h, _⟩ := state_dispatch_eq exampleLayoutOf exampleState []
        (by decide) (by decide) (by decide)
      have hk := (dispatch_keeps_frames exampleLayoutOf).2.2.2 exampleState s' [] _ h
      exact ⟨s', _, h, hk.2.1, hk.2.2.1, hk.2.2.2.2.2.2.2.1⟩⟩

end DispatchFrame

/-! ## Dispatch is defined under balanced use -/

section BalancedUse

variable {T mat4 dmat4 L : Type}

/-- After any defined call a `StateStack` is non-empty if dirty. -/
theorem stateStack_step_dispatchable (st st' : StateStack T × CommandBuffer T mat4)
    (op : StackOp T) (h : StateStack.step st op = some st') : st'.1.Dispatchable := by
  obtain ⟨⟨stack, dirty⟩, cb⟩ := st
  cases op with
  | push value =>
    simp only [StateStack.step, Option.some.injEq] at h
    subst h
    intro _
    simp [StateStack.push]
  | pop =>
    cases stack with
    | nil => simp [StateStack.step, StateStack.pop] at h
    | cons a rest =>
      simp only [StateStack.step, StateStack.pop, Option.some.injEq] at h
      subst h
      intro hd
      cases rest with
      | nil => simp at hd
      | cons b rest2 => simp
  | dispatch =>
    obtain ⟨s', cb'⟩ := st'
    have hc := stateStack_dispatch_result_clean _ s' cb cb' h
    intro hd
    rw [hc] at hd
    exact absurd hd (by simp)

/-- After any defined sequence of calls from a `StateStack` that is non-empty if
dirty, the stack is non-empty if dirty. -/
theorem stateStack_run_dispatchable :
    ∀ (ops : List (StackOp T)) (st st' : StateStack T × CommandBuffer T mat4),
      st.1.Dispatchable → StateStack.run ops st = some st' → st'.1.Dispatchable
  | [], st, st', inv, h => by
    simp only [StateStack.run, Option.some.injEq] at h
    subst h
    exact inv
  | op :: ops, st, st', _, h => by
    simp only [StateStack.run] at h
    split at h
    · exact absurd h (by simp)
    · rename_i st1 h1
      exact stateStack_run_dispatchable ops st1 st' (stateStack_step_dispatchable st st1 op h1) h

/-- After any defined call a `InlineStateStack` is non-empty if dirty. -/
theorem inlineStack_step_dispatchable (st st' : InlineStateStack T × CommandBuffer T mat4)
    (op : StackOp T) (h : InlineStateStack.step st op = some st') : st'.1.Dispatchable := by
  obtain ⟨⟨stack, dirty⟩, cb⟩ := st
  cases op with
  | push value =>
    simp only [InlineStateStack.step, Option.some.injEq] at h
    subst h
    intro _
    simp [InlineStateStack.push]
  | pop =>
    cases stack with
    | nil => simp [InlineStateStack.step, InlineStateStack.pop] at h
    | cons a rest =>
      simp only [InlineStateStack.step, InlineStateStack.pop, Option.some.injEq] at h
      subst h
      intro hd
      cases rest with
      | nil => simp at hd
      | cons b rest2 => simp
  | dispatch =>
    obtain ⟨s', cb'⟩ := st'
    have hc := inlineStack_dispatch_result_clean _ s' cb cb' h
    intro hd
    rw [hc] at hd
    exact absurd hd (by simp)

/-- After any defined sequence of calls from a `InlineStateStack` that is non-empty if
dirty, the stack is non-empty if dirty. -/
theorem inlineStack_run_dispatchable :
    ∀ (ops : List (StackOp T)) (st st' : InlineStateStack T × CommandBuffer T mat4),
      st.1.Dispatchable → InlineStateStack.run ops st = some st' → st'.1.Dispatchable
  | [], st, st', inv, h => by
    simp only [InlineStateStack.run, Option.some.injEq] at h
    subst h
    exact inv
  | op :: ops, st, st', _, h => by
    simp only [InlineStateStack.run] at h
    split at h
    · exact absurd h (by simp)
    · rename_i st1 h1
      exact inlineStack_run_dispatchable ops st1 st' (inlineStack_step_dispatchable st st1 op h1) h

/-- C18 (dispatch on a generic stack is defined under balanced use): after
any sequence of push / dispatch / pop-on-non-empty calls on a newly
constructed `StateStack` or `InlineStateStack`, a dirty stack is non-empty, so
`dispatch` returns: it does not read the top of an empty stack. -/
theorem generic_dispatch_defined {T mat4 : Type} :
    (∀ (ops : List (StackOp T)) (s : StateStack T) (cb : CommandBuffer T mat4),
      StateStack.run ops (StateStack.new, []) = some (s, cb) →
        (s.dirty = true → s.stack ≠ []) ∧
        ∃ r, s.dispatch cb = some r) ∧
    (∀ (ops : List (StackOp T)) (s : InlineStateStack T) (cb : CommandBuffer T mat4),
      InlineStateStack.run ops (InlineStateStack.new, []) = some (s, cb) →
        (s.dirty = true → s.stack ≠ []) ∧
        ∃ r, s.dispatch cb = some r) := by
  constructor
  · intro ops s cb h
    have hD : s.Dispatchable :=
      stateStack_run_dispatchable ops _ (s, cb) (fun hd => by simp [StateStack.new] at hd) h
    exact ⟨hD, _, stateStack_dispatch_eq s cb hD⟩
  · intro ops s cb h
    have hD : s.Dispatchable :=
      inlineStack_run_dispatchable ops _ (s, cb)
        (fun hd => by simp [InlineStateStack.new] at hd) h
    exact ⟨hD, _, inlineStack_dispatch_eq s cb hD⟩

/-- Witness of C18: push, push, dispatch, pop leaves a dirty stack holding one
frame. -/
theorem generic_dispatch_defined_witness :
    (StateStack.run [StackOp.push 1, StackOp.push 2, StackOp.dispatch, StackOp.pop]
        (StateStack.new, ([] : CommandBuffer Nat Nat)) =
        some (⟨[1], true⟩, [Command.dispatch 2]) ∧
      ((⟨[1], true⟩ : StateStack Nat).dirty = true → (⟨[1], true⟩ : StateStack Nat).stack ≠ []) ∧
      ∃ r, (⟨[1], true⟩ : StateStack Nat).dispatch
        ([Command.dispatch 2] : CommandBuffer Nat Nat) = some r) ∧
    (InlineStateStack.run [StackOp.push 1, StackOp.push 2, StackOp.dispatch, StackOp.pop]
        (InlineStateStack.new, ([] : CommandBuffer Nat Nat)) =
        some (⟨[1], true⟩, [Command.dispatchInline 2]) ∧
      ((⟨[1], true⟩ : InlineStateStack Nat).dirty = true →
        (⟨[1], true⟩ : InlineStateStack Nat).stack ≠ []) ∧
      ∃ r, (⟨[1], true⟩ : InlineStateStack Nat).dispatch
        ([Command.dispatchInline 2] : CommandBuffer Nat Nat) = some r) :=
  ⟨⟨by decide,
      (@generic_dispatch_defined Nat Nat).1
        [StackOp.push 1, StackOp.push 2, StackOp.dispatch, StackOp.pop] ⟨[1], true⟩
        [Command.dispatch 2] (by decide)⟩,
    ⟨by decide,
      (@generic_dispatch_defined Nat Nat).2
        [StackOp.push 1, StackOp.push 2, StackOp.dispatch, StackOp.pop] ⟨[1], true⟩
        [Command.dispatchInline 2] (by decide)⟩⟩

/-- Under balanced push / pop / dispatch calls, on a buffer with a current
layout, a `MatrixStack` holding `k + 1` frames stays defined, keeps its bottom
frame, and ends with as many frames more as there were pushes beyond pops, a
layout still current. -/
theorem matrixStack_run_balanced (layoutOf : Command T mat4 → Option L)
    (narrow : dmat4 → mat4) :
    ∀ (ops : List (MatrixOp mat4 dmat4)) (st : MatrixStack mat4 × CommandBuffer T mat4)
      (k : Nat),
      LayoutBound layoutOf st.2 →
      st.1.matrixStack.length = k + 1 →
      (∀ op ∈ ops, op.isSet = false) →
      (∀ n, (ops.take n).countP MatrixOp.isPop ≤
        (ops.take n).countP MatrixOp.isPush + k) →
      ∃ st' : MatrixStack mat4 × CommandBuffer T mat4,
        MatrixStack.run layoutOf narrow ops st = some st' ∧
        st'.1.matrixStack.length + ops.countP MatrixOp.isPop =
          k + 1 + ops.countP MatrixOp.isPush ∧
        st'.1.matrixStack.getLast? = st.1.matrixStack.getLast? ∧
        LayoutBound layoutOf st'.2
  | [], st, k, hb, hlen, _, _ => ⟨st, rfl, by simpa using hlen, rfl, hb⟩
  | op :: ops, st, k, hb, hlen, hset, hbal => by
    obtain ⟨⟨stack, flags, offset, dirty⟩, cb⟩ := st
    simp only at hlen hb
    have hset' : ∀ o ∈ ops, o.isSet = false := fun o ho => hset o (List.mem_cons_of_mem _ ho)
    cases op with
    | set matrix => exact absurd (hset _ (List.mem_cons_self _ _)) (by simp [MatrixOp.isSet])
    | setDouble matrix =>
      exact absurd (hset _ (List.mem_cons_self _ _)) (by simp [MatrixOp.isSet])
    | push matrix =>
      have hbal' : ∀ n, (ops.take n).countP MatrixOp.isPop ≤
          (ops.take n).countP MatrixOp.isPush + (k + 1) := by
        intro n
        have := hbal (n + 1)
        simp only [List.take_succ_cons, List.countP_cons, MatrixOp.isPop, MatrixOp.isPush]
          at this
        simp only [Bool.false_eq_true, if_false, if_true] at this
        omega
      obtain ⟨st', hrun, hl, hlast, hb'⟩ := matrixStack_run_balanced layoutOf narrow ops
        (⟨matrix :: stack, flags, offset, true⟩, cb) (k + 1) hb (by simp [hlen]) hset' hbal'
      refine ⟨st', ?_, ?_, ?_, hb'⟩
      · simpa [MatrixStack.run, MatrixStack.step, MatrixStack.push] using hrun
      · simp only [List.countP_cons, MatrixOp.isPop, MatrixOp.isPush]
        simp only [Bool.false_eq_true, if_false, if_true]
        omega
      · rw [hlast]
        cases stack with
        | nil => simp at hlen
        | cons a rest => simp [List.getLast?_cons_cons]
    | pop =>
      have hk : 1 ≤ k := by
        have := hbal 1
        simp only [List.take_succ_cons, List.take_zero, List.countP_cons, List.countP_nil,
          MatrixOp.isPop, MatrixOp.isPush] at this
        simp only [Bool.false_eq_true, if_false, if_true] at this
        omega
      have hbal' : ∀ n, (ops.take n).countP MatrixOp.isPop ≤
          (ops.take n).countP MatrixOp.isPush + (k - 1) := by
        intro n
        have := hbal (n + 1)
        simp only [List.take_succ_cons, List.countP_cons, MatrixOp.isPop, MatrixOp.isPush]
          at this
        simp only [Bool.false_eq_true, if_false, if_true] at this
        omega
      cases stack with
      | nil => simp at hlen
      | cons a rest =>
        cases rest with
        | nil =>
          simp only [List.length_singleton] at hlen
          omega
        | cons b rest2 =>
          obtain ⟨st', hrun, hl, hlast, hb'⟩ := matrixStack_run_balanced layoutOf narrow ops
            (⟨b :: rest2, flags, offset, true⟩, cb) (k - 1) hb
            (by simp only [List.length_cons] at hlen ⊢; omega) hset' hbal'
          refine ⟨st', ?_, ?_, ?_, hb'⟩
          · simpa [MatrixStack.run, MatrixStack.step, MatrixStack.pop] using hrun
          · simp only [List.countP_cons, MatrixOp.isPop, MatrixOp.isPush]
            simp only [Bool.false_eq_true, if_false, if_true]
            omega
          · rw [hlast]
            simp [List.getLast?_cons_cons]
    | dispatch =>
      have hbal' : ∀ n, (ops.take n).countP MatrixOp.isPop ≤
          (ops.take n).countP MatrixOp.isPush + k := by
        intro n
        have := hbal (n + 1)
        simp only [List.take_succ_cons, List.countP_cons, MatrixOp.isPop, MatrixOp.isPush]
          at this
        simp only [Bool.false_eq_true, if_false] at this
        omega
      cases stack with
      | nil => simp at hlen
      | cons a rest =>
        have hD : (⟨a :: rest, flags, offset, dirty⟩ : MatrixStack mat4).Dispatchable :=
          fun _ => by simp
        obtain ⟨st', hrun, hl, hlast, hb'⟩ := matrixStack_run_balanced layoutOf narrow ops
          ((⟨a :: rest, flags, offset, dirty⟩ : MatrixStack mat4).cleared,
            cb ++ (⟨a :: rest, flags, offset, dirty⟩ : MatrixStack mat4).contribution)
          k (layoutBound_append layoutOf cb _ hb) hlen hset' hbal'
        refine ⟨st', ?_, ?_, ?_, hb'⟩
        · simp only [MatrixStack.run, MatrixStack.step,
            matrixStack_dispatch_eq layoutOf _ cb hD (fun _ => hb)]
          exact hrun
        · simp only [List.countP_cons, MatrixOp.isPop, MatrixOp.isPush]
          simp only [Bool.false_eq_true, if_false]
          exact hl
        · rw [hlast]
          rfl

/-- C19 (a `MatrixStack` stays non-empty under balanced push / pop): for every
sequence of push / pop / dispatch calls (no `set`) on a newly constructed
`MatrixStack`, recording on a buffer `cb0` with a current pipeline layout, in
which every prefix has at least as many pushes as pops, after every step the
calls so far are all defined and the stack holds at least one frame, the
bottom one being the identity seeded at construction, so `top` and `dispatch`
are defined there. -/
theorem matrixStack_nonempty_when_balanced {T mat4 dmat4 L : Type}
    (layoutOf : Command T mat4 → Option L) (identity : mat4)
    (o : Nat) (narrow : dmat4 → mat4) (cb0 : CommandBuffer T mat4)
    (ops : List (MatrixOp mat4 dmat4))
    (hb : LayoutBound layoutOf cb0)
    (hset : ∀ op ∈ ops, op.isSet = false)
    (hbal : ∀ n, (ops.take n).countP MatrixOp.isPop ≤ (ops.take n).countP MatrixOp.isPush)
    (n : Nat) :
    ∃ (s : MatrixStack mat4) (cb : CommandBuffer T mat4),
      MatrixStack.run layoutOf narrow (ops.take n) (MatrixStack.new identity o, cb0) =
        some (s, cb) ∧
      1 ≤ s.matrixStack.length ∧
      s.matrixStack.getLast? = some identity ∧
      (∃ m, s.top = some m) ∧
      (∃ r, s.dispatch layoutOf cb = some r) := by
  have hset' : ∀ op ∈ ops.take n, op.isSet = false :=
    fun op h => hset op (List.mem_of_mem_take h)
  have hbal' : ∀ m, ((ops.take n).take m).countP MatrixOp.isPop ≤
      ((ops.take n).take m).countP MatrixOp.isPush + 0 := by
    intro m
    rw [List.take_take]
    exact hbal _
  obtain ⟨⟨s, cb⟩, hrun, hl, hlast, hb'⟩ := matrixStack_run_balanced layoutOf narrow
    (ops.take n) (MatrixStack.new identity o, cb0) 0 hb rfl hset' hbal'
  have hbn := hbal n
  have hlen : 1 ≤ s.matrixStack.length := by
    simp only at hl
    omega
  have hne : s.matrixStack ≠ [] := by
    intro h0
    rw [h0] at hlen
    simp at hlen
  exact ⟨s, cb, hrun, hlen, hlast, exists_head_of_ne_nil _ hne,
    _, matrixStack_dispatch_eq layoutOf s cb (fun _ => hne) (fun _ => hb')⟩

/-- Witness of C19: push, dispatch, pop, push, push, pop, observed after five
steps, on a buffer on which the pipeline bind 1 has made a layout current. -/
theorem matrixStack_nonempty_when_balanced_witness :
    (LayoutBound exampleLayoutOf [Command.dispatch 1] ∧
      (∀ op ∈ ([MatrixOp.push 1, MatrixOp.dispatch, MatrixOp.pop, MatrixOp.push 2,
          MatrixOp.push 3, MatrixOp.pop] : List (MatrixOp Nat Nat)), op.isSet = false) ∧
      (∀ n, (([MatrixOp.push 1, MatrixOp.dispatch, MatrixOp.pop, MatrixOp.push 2,
          MatrixOp.push 3, MatrixOp.pop] : List (MatrixOp Nat Nat)).take n).countP
            MatrixOp.isPop ≤
        (([MatrixOp.push 1, MatrixOp.dispatch, MatrixOp.pop, MatrixOp.push 2,
          MatrixOp.push 3, MatrixOp.pop] : List (MatrixOp Nat Nat)).take n).countP
            MatrixOp.isPush)) ∧
    ∃ (s : MatrixStack Nat) (cb : CommandBuffer Nat Nat),
      MatrixStack.run exampleLayoutOf (fun d : Nat => d + 100)
          (([MatrixOp.push 1, MatrixOp.dispatch, MatrixOp.pop, MatrixOp.push 2,
            MatrixOp.push 3, MatrixOp.pop] : List (MatrixOp Nat Nat)).take 5)
          (MatrixStack.new 0 128, [Command.dispatch 1]) = some (s, cb) ∧
      1 ≤ s.matrixStack.length ∧
      s.matrixStack.getLast? = some 0 ∧
      (∃ m, s.top = some m) ∧
      (∃ r, s.dispatch exampleLayoutOf cb = some r) :=
  have hb : LayoutBound exampleLayoutOf [Command.dispatch 1] := by decide
  have hset : ∀ op ∈ ([MatrixOp.push 1, MatrixOp.dispatch, MatrixOp.pop, MatrixOp.push 2,
      MatrixOp.push 3, MatrixOp.pop] : List (MatrixOp Nat Nat)), op.isSet = false := by
    decide
  have hbal : ∀ n, (([MatrixOp.push 1, MatrixOp.dispatch, MatrixOp.pop, MatrixOp.push 2,
      MatrixOp.push 3, MatrixOp.pop] : List (MatrixOp Nat Nat)).take n).countP
        MatrixOp.isPop ≤
      (([MatrixOp.push 1, MatrixOp.dispatch, MatrixOp.pop, MatrixOp.push 2,
        MatrixOp.push 3, MatrixOp.pop] : List (MatrixOp Nat Nat)).take n).countP
          MatrixOp.isPush := by
    intro n
    rcases n with _ | _ | _ | _ | _ | _ | _ | n <;> simp [MatrixOp.isPop, MatrixOp.isPush, List.countP_cons]
  ⟨⟨hb, hset, hbal⟩,
    matrixStack_nonempty_when_balanced exampleLayoutOf 0 128 (fun d : Nat => d + 100)
      [Command.dispatch 1] _ hb hset hbal 5⟩

end BalancedUse

end vsg
